import Mathlib

/-! Task management service: repository, validator and service layer

A shallow embedding of the Go packages `internal/models`, `pkg/utils`,
`internal/repository` and `internal/service` of `task-app`, followed by
theorems about them.

Modelling conventions.

* A Go `string` is a Lean `String`; the Go builtin `len` is the length in bytes
  of the UTF-8 encoding (`String.utf8ByteSize`), and `for _, c := range s`
  visits the characters of `s.data` in order.
* A `time.Time` is an instant: an integer number of nanoseconds counted from
  `0001-01-01T00:00:00Z`, so that the Go zero value is `0`. `Before`, `After`
  and `Equal` compare instants. The time `time.Now()` returns is in the
  location of the host, which is an argument `loc` of what does calendar
  arithmetic on it.
* A `uuid.UUID` is the natural number its 16 bytes encode; `uuid.Nil` is `0`.
* `map[uuid.UUID]*models.Task` is an association list with distinct keys.
  In `InMemoryTaskRepository` a stored pointer is modelled by the record it
  points to, which describes single calls; `PointerRepository` keeps the
  addresses and what the struct at each address holds, for what depends on
  two pointers being the same.
* The results of `uuid.New()` and of each `time.Now()` are arguments of the
  operation that calls them, in the order in which the code calls them.
* The mutex and the log lines have no counterpart: every operation is a
  function from the state before the call to a result and the state after it.
-/

namespace TaskApp

/-! ## `internal/models/task.go` -/

/-- A `uuid.UUID`, as the number its bytes encode. -/
abbrev UUID := Nat

/-- A `time.Time`, in nanoseconds since `0001-01-01T00:00:00Z`. -/
abbrev Time := Int

/-- The Go type `models.Priority`, a named string type. -/
abbrev Priority := String

/-- The Go type `models.Status`, a named string type. -/
abbrev Status := String

def PriorityLow : Priority := "LOW"
def PriorityMedium : Priority := "MEDIUM"
def PriorityHigh : Priority := "HIGH"

def StatusToDo : Status := "TODO"
def StatusInProgress : Status := "IN_PROGRESS"
def StatusDone : Status := "DONE"
def StatusBlocked : Status := "BLOCKED"

/-- The Go struct `models.Task`. -/
structure Task where
  ID : UUID
  Title : String
  Description : String
  Category : String
  DueDate : Time
  Priority : Priority
  Status : Status
  CreatedAt : Time
  UpdatedAt : Time
deriving DecidableEq, Repr

/-- The Go struct `models.CreateTaskRequest`. -/
structure CreateTaskRequest where
  Title : String
  Description : String
  Category : String
  DueDate : Time
  Priority : Priority
  Status : Status
deriving DecidableEq, Repr

/-! ## Go `error` values -/

/-- The package-level error variables of `pkg/utils/validation.go`. -/
inductive Sentinel where
  | ErrEmptyTitle
  | ErrTitleTooLong
  | ErrInvalidPriority
  | ErrInvalidStatus
  | ErrDueDateInPast
  | ErrDescriptionTooLong
  | ErrInvalidCategory
deriving DecidableEq, Repr

/-- The text given to `errors.New` for each package-level error variable. -/
def Sentinel.text : Sentinel → String
  | .ErrEmptyTitle => "title cannot be empty"
  | .ErrTitleTooLong => "title cannot exceed 100 characters"
  | .ErrInvalidPriority => "invalid priority level"
  | .ErrInvalidStatus => "invalid task status"
  | .ErrDueDateInPast => "due date cannot be in the past"
  | .ErrDescriptionTooLong => "description cannot exceed 500 characters"
  | .ErrInvalidCategory => "category name is invalid"

/-- A non-nil Go `error` as this program builds them. -/
inductive GoError where
  /-- One of the package-level variables itself. -/
  | sentinel (e : Sentinel)
  /-- A value made at the call site by `errors.New(msg)` or by `fmt.Errorf(msg)`
  without `%w`: it is identical to no package-level variable and wraps none. -/
  | fresh (msg : String)
  /-- The value of `fmt.Errorf("%w: %s", e, detail)`, which wraps `e`. -/
  | wrap (e : Sentinel) (detail : String)
deriving DecidableEq, Repr

/-- The method `Error()`. -/
def GoError.Error : GoError → String
  | .sentinel e => e.text
  | .fresh msg => msg
  | .wrap e detail => e.text ++ ": " ++ detail

/-- The function `errors.Is(err, target)` for a package-level `target`. -/
def errorsIs : GoError → Sentinel → Bool
  | .sentinel e, target => decide (e = target)
  | .fresh _, _ => false
  | .wrap e _, target => decide (e = target)

/-- The error both `fmt.Errorf("task not found")` calls of the repository build. -/
def errTaskNotFound : GoError := .fresh "task not found"

/-! ## The standard library pieces the validator calls -/

/-- The builtin `len` on a string: its length in bytes. -/
def len (s : String) : Nat := s.utf8ByteSize

/-- The letters among the code points up to `unicode.MaxLatin1`, as the table
`properties` of package `unicode` marks them (`pLu` or `pLl` or `pLo`). -/
def latin1Letter (n : Nat) : Bool :=
  (0x41 ≤ n && n ≤ 0x5A) || (0x61 ≤ n && n ≤ 0x7A) || n == 0xAA || n == 0xB5 || n == 0xBA ||
    (0xC0 ≤ n && n ≤ 0xD6) || (0xD8 ≤ n && n ≤ 0xF6) || (0xF8 ≤ n && n ≤ 0xFF)

/-- The function `unicode.IsLetter`. Code points up to `unicode.MaxLatin1` are
decided by the table `properties`; for the others the range table
`unicode.Letter` is consulted, which is the argument `Letter` here. -/
def IsLetter (Letter : Char → Bool) (r : Char) : Bool :=
  if r.toNat ≤ 0xFF then latin1Letter r.toNat else Letter r

/-- The range table `unicode.White_Space` above Latin-1. -/
def whiteSpaceTable (n : Nat) : Bool :=
  n == 0x1680 || (0x2000 ≤ n && n ≤ 0x200A) || n == 0x2028 || n == 0x2029 || n == 0x202F ||
    n == 0x205F || n == 0x3000

/-- The function `unicode.IsSpace`. -/
def IsSpace (r : Char) : Bool :=
  if r.toNat ≤ 0xFF then
    r.toNat == 0x09 || r.toNat == 0x0A || r.toNat == 0x0B || r.toNat == 0x0C ||
      r.toNat == 0x0D || r.toNat == 0x20 || r.toNat == 0x85 || r.toNat == 0xA0
  else whiteSpaceTable r.toNat

/-- Seconds in a day. -/
def secondsPerDay : Int := 86400

/-- Nanoseconds in a second. -/
def nsPerSecond : Int := 1000000000

/-- What the method `lookup` of a location returns for an instant: the offset
of the zone in effect, in seconds east of UTC, and the seconds
`start ≤ sec < stop` during which that zone is in effect. -/
structure Zone where
  offset : Int
  start : Int
  stop : Int
deriving DecidableEq, Repr

/-- A `*time.Location`, given by its method `lookup`; seconds are counted from
`0001-01-01T00:00:00Z`. The zone table of the host is not part of the
repository, so the location is an argument of what depends on it. No zone is
more than eight days away from UTC: the zones of the tz database are within a
day of it. -/
structure Location where
  lookup : Int → Zone
  offset_le : ∀ sec, (lookup sec).offset ≤ 8 * 86400
  le_offset : ∀ sec, -(8 * 86400) ≤ (lookup sec).offset

/-- The location `time.UTC`: offset zero at all times. -/
def utcLoc : Location where
  lookup := fun _ => ⟨0, -(2 ^ 63), 2 ^ 63 - 1⟩
  offset_le := fun _ => by show (0 : Int) ≤ 8 * 86400; decide
  le_offset := fun _ => by show -(8 * 86400) ≤ (0 : Int); decide

/-- A location ten hours east of UTC at all times, as `time.FixedZone` makes it. -/
def plusTenLoc : Location where
  lookup := fun _ => ⟨36000, -(2 ^ 63), 2 ^ 63 - 1⟩
  offset_le := fun _ => by show (36000 : Int) ≤ 8 * 86400; decide
  le_offset := fun _ => by show -(8 * 86400) ≤ (36000 : Int); decide

/-- The proleptic Gregorian date `(year, month, day)` of the day that lies
`z` days after `0000-03-01`. -/
def civilFromDays (z : Int) : Int × Int × Int :=
  let era := z / 146097
  let doe := z - era * 146097
  let yoe := (doe - doe / 1460 + doe / 36524 - doe / 146096) / 365
  let doy := doe - (365 * yoe + yoe / 4 - yoe / 100)
  let mp := (5 * doy + 2) / 153
  let d := doy - (153 * mp + 2) / 5 + 1
  let m := if mp < 10 then mp + 3 else mp - 9
  let y := yoe + era * 400 + (if m ≤ 2 then 1 else 0)
  (y, m, d)

/-- The number of days from `0000-03-01` to the date `(y, m, d)`; a day past
the end of its month counts on into the next month, as `time.Date` normalises. -/
def daysFromCivil (y m d : Int) : Int :=
  let y1 := if m ≤ 2 then y - 1 else y
  let era := y1 / 400
  let yoe := y1 - era * 400
  let doy := (153 * (if m > 2 then m - 3 else m + 9) + 2) / 5 + d - 1
  let doe := yoe * 365 + yoe / 4 - yoe / 100 + doy
  era * 146097 + doe

/-- The wall clock of `loc` at the instant `sec`, in seconds, as `t.abs()`
computes it for `t.Date()` and `t.Clock()`. -/
def wallSeconds (loc : Location) (sec : Int) : Int :=
  sec + (loc.lookup sec).offset

/-- The offset `time.Date` subtracts from a wall clock `unix`, read as if it
were in UTC, to get the instant in `loc`: the zone found at `unix`, unless the
instant it gives lies outside that zone, in which case the zone found at that
instant. -/
def dateOffset (loc : Location) (unix : Int) : Int :=
  let zone := loc.lookup unix
  if zone.offset ≠ 0 then
    let utc := unix - zone.offset
    if utc < zone.start ∨ utc ≥ zone.stop then (loc.lookup utc).offset else zone.offset
  else 0

/-- The method `t.AddDate(years, 0, 0)` for a time `t` of location `loc`: the
year, month, day and clock that `t.Date()` and `t.Clock()` read in `loc`,
`years` years later, turned back into an instant of `loc` and normalised by
`time.Date`. -/
def AddDate (loc : Location) (t : Time) (years : Int) : Time :=
  let sec := t / nsPerSecond
  let nsec := t % nsPerSecond
  let wall := wallSeconds loc sec
  let days := wall / secondsPerDay
  let clock := wall % secondsPerDay
  let ymd := civilFromDays (days + 306)
  let unix := (daysFromCivil (ymd.1 + years) ymd.2.1 ymd.2.2 - 306) * secondsPerDay + clock
  (unix - dateOffset loc unix) * nsPerSecond + nsec

/-! ## `pkg/utils/validation.go` -/

/-- The helper `containsMeaningfulCharacters`. -/
def containsMeaningfulCharacters (Letter : Char → Bool) (s : String) : Bool :=
  let letterCount := s.data.foldl (fun n char => if IsLetter Letter char then n + 1 else n) 0
  decide (letterCount > 0)

/-- The method `Validator.validateTitle`; `none` is the nil error. -/
def validateTitle (Letter : Char → Bool) (title : String) : Option GoError :=
  if title = "" then some (.sentinel .ErrEmptyTitle)
  else if len title > 100 then some (.sentinel .ErrTitleTooLong)
  else if !containsMeaningfulCharacters Letter title then
    some (.fresh "title must contain meaningful characters")
  else none

/-- The method `Validator.validateDescription`. -/
def validateDescription (description : String) : Option GoError :=
  if len description > 500 then some (.sentinel .ErrDescriptionTooLong) else none

/-- The method `Validator.validateCategory`. -/
def validateCategory (Letter : Char → Bool) (category : String) : Option GoError :=
  if category ≠ "" then
    if len category > 50 then some (.sentinel .ErrInvalidCategory)
    else if category.data.any
        (fun char => !IsLetter Letter char && !IsSpace char && char != '-') then
      some (.sentinel .ErrInvalidCategory)
    else none
  else none

/-- The method `Validator.validatePriority`. -/
def validatePriority (priority : Priority) : Option GoError :=
  let validPriorities : List Priority := [PriorityLow, PriorityMedium, PriorityHigh]
  if !validPriorities.contains priority then some (.wrap .ErrInvalidPriority priority) else none

/-- The method `Validator.validateStatus`. -/
def validateStatus (status : Status) : Option GoError :=
  let validStatuses : List Status := [StatusToDo, StatusInProgress, StatusDone, StatusBlocked]
  if !validStatuses.contains status then some (.wrap .ErrInvalidStatus status) else none

/-- The method `Validator.validateDueDate`; `now` is the value of `time.Now()`. -/
def validateDueDate (loc : Location) (now : Time) (dueDate : Time) : Option GoError :=
  if dueDate < now then some (.sentinel .ErrDueDateInPast)
  else
    let maxFutureDate := AddDate loc now 5
    if dueDate > maxFutureDate then
      some (.fresh "due date cannot be more than 5 years in the future")
    else none

/-- The method `Validator.ValidateTask`; `now` is the value `time.Now()` has
when `validateDueDate` is reached. -/
def ValidateTask (Letter : Char → Bool)
    (loc : Location) (now : Time) (task : Task) : Option GoError :=
  match validateTitle Letter task.Title with
  | some err => some err
  | none =>
  match validateDescription task.Description with
  | some err => some err
  | none =>
  match validateCategory Letter task.Category with
  | some err => some err
  | none =>
  match validatePriority task.Priority with
  | some err => some err
  | none =>
  match validateStatus task.Status with
  | some err => some err
  | none =>
  match validateDueDate loc now task.DueDate with
  | some err => some err
  | none => none

/-- The function `FilterValidationError`: the `switch` tries the five
`errors.Is` cases in order. -/
def FilterValidationError (err : GoError) : String :=
  if errorsIs err .ErrEmptyTitle then "Please provide a valid task title"
  else if errorsIs err .ErrTitleTooLong then "Task title is too long (max 100 characters)"
  else if errorsIs err .ErrInvalidPriority then "Invalid priority level"
  else if errorsIs err .ErrInvalidStatus then "Invalid task status"
  else if errorsIs err .ErrDueDateInPast then "Due date cannot be in the past"
  else "Invalid task details"

/-- The loop of `BatchValidate` from index `i` on, over the tasks not yet
visited; `clock i` is the value `time.Now()` has while task `i` is validated. -/
def BatchValidate.loop (Letter : Char → Bool) (loc : Location) (clock : Nat → Time) :
    Nat → List Task → AList (fun _ : Nat => GoError) → AList (fun _ : Nat => GoError)
  | _, [], validationErrors => validationErrors
  | i, task :: rest, validationErrors =>
    match ValidateTask Letter loc (clock i) task with
    | some err => BatchValidate.loop Letter loc clock (i + 1) rest (validationErrors.insert i err)
    | none => BatchValidate.loop Letter loc clock (i + 1) rest validationErrors

/-- The method `Validator.BatchValidate`; the result is the `map[int]error`. -/
def BatchValidate (Letter : Char → Bool) (loc : Location) (clock : Nat → Time) (tasks : List Task) :
    AList (fun _ : Nat => GoError) :=
  BatchValidate.loop Letter loc clock 0 tasks ∅

/-! ## `internal/repository/inmemory_repository.go` -/

/-- The Go struct `InMemoryTaskRepository`: the map `tasks`. -/
structure InMemoryTaskRepository where
  tasks : AList (fun _ : UUID => Task)

/-- The constructor `NewInMemoryTaskRepository`: an empty map. -/
def NewInMemoryTaskRepository : InMemoryTaskRepository := ⟨∅⟩

/-- The method `Create`. `newID` is the value of `uuid.New()`, `now1` and `now2`
are the values of the first and of the second `time.Now()`. The result is the
task the argument points to after the call and the returned error. -/
def InMemoryTaskRepository.Create (r : InMemoryTaskRepository) (task : Task)
    (newID : UUID) (now1 now2 : Time) : (Task × Option GoError) × InMemoryTaskRepository :=
  let task := { task with ID := newID }
  let task := { task with CreatedAt := now1 }
  let task := { task with UpdatedAt := now2 }
  ((task, none), ⟨r.tasks.insert task.ID task⟩)

/-- The method `GetByID`; it only reads the map. -/
def InMemoryTaskRepository.GetByID (r : InMemoryTaskRepository) (id : UUID) :
    Except GoError Task :=
  match r.tasks.lookup id with
  | none => .error errTaskNotFound
  | some task => .ok task

/-- The method `Update`; `now` is the value of `time.Now()`, read only when the
identifier is present. -/
def InMemoryTaskRepository.Update (r : InMemoryTaskRepository) (task : Task) (now : Time) :
    Option GoError × InMemoryTaskRepository :=
  match r.tasks.lookup task.ID with
  | none => (some errTaskNotFound, r)
  | some _ =>
    let task := { task with UpdatedAt := now }
    (none, ⟨r.tasks.insert task.ID task⟩)

/-- The method `Delete`. -/
def InMemoryTaskRepository.Delete (r : InMemoryTaskRepository) (id : UUID) :
    Option GoError × InMemoryTaskRepository :=
  match r.tasks.lookup id with
  | none => (some errTaskNotFound, r)
  | some _ => (none, ⟨r.tasks.erase id⟩)

/-- The method `Duplicate`. `newID` is the value of `uuid.New()`, `now1` and
`now2` are the values of the two `time.Now()` of the struct literal, in order. -/
def InMemoryTaskRepository.Duplicate (r : InMemoryTaskRepository) (id : UUID)
    (newID : UUID) (now1 now2 : Time) : Except GoError Task × InMemoryTaskRepository :=
  match r.tasks.lookup id with
  | none => (.error errTaskNotFound, r)
  | some originalTask =>
    let duplicatedTask : Task :=
      { ID := newID
        Title := originalTask.Title ++ " (Copy)"
        Description := originalTask.Description
        Category := originalTask.Category
        DueDate := originalTask.DueDate
        Priority := originalTask.Priority
        Status := StatusToDo
        CreatedAt := now1
        UpdatedAt := now2 }
    (.ok duplicatedTask, ⟨r.tasks.insert duplicatedTask.ID duplicatedTask⟩)

/-- A value of type `interface{}` in a filter map, by its dynamic type. -/
inductive FilterValue where
  /-- A value of dynamic type `string`. -/
  | string (s : String)
  /-- A value of dynamic type `models.Status`. -/
  | status (s : Status)
  /-- A value of dynamic type `models.Priority`. -/
  | priority (p : Priority)
  /-- A value of dynamic type `time.Time`. -/
  | time (t : Time)
  /-- A value of any other dynamic type, or the nil interface. -/
  | other (tag : Nat)
deriving DecidableEq, Repr

/-- The Go type `map[string]interface{}` of the filters. -/
abbrev Filters := AList (fun _ : String => FilterValue)

/-- One pass through the `switch` of `matchesFilters`: `true` when the case
taken executes `return false`. A field and an interface value are unequal
unless the value has the dynamic type of the field and is equal to it. -/
def filterRejects (task : Task) (key : String) (value : FilterValue) : Bool :=
  if key = "title" then decide (FilterValue.string task.Title ≠ value)
  else if key = "category" then decide (FilterValue.string task.Category ≠ value)
  else if key = "status" then decide (FilterValue.status task.Status ≠ value)
  else if key = "priority" then decide (FilterValue.priority task.Priority ≠ value)
  else if key = "due_date" then
    match value with
    | .time dueDate => !decide (task.DueDate = dueDate)
    | _ => true
  else false

/-- The loop of `matchesFilters` over the entries of the filter map. -/
def matchesFilters.loop (task : Task) : List (Sigma (fun _ : String => FilterValue)) → Bool
  | [] => true
  | ⟨key, value⟩ :: rest =>
    if filterRejects task key value then false else matchesFilters.loop task rest

/-- The function `matchesFilters`. -/
def matchesFilters (task : Task) (filters : Filters) : Bool :=
  matchesFilters.loop task filters.entries

/-- The loop of `List` over the entries of the task map, appending to
`filteredTasks`. The map is visited in the order of its entries. -/
def listLoop (filters : Filters) :
    List (Sigma (fun _ : UUID => Task)) → List Task → List Task
  | [], filteredTasks => filteredTasks
  | ⟨_, task⟩ :: rest, filteredTasks =>
    if matchesFilters task filters then listLoop filters rest (filteredTasks ++ [task])
    else listLoop filters rest filteredTasks

/-- The method `List`; it only reads the map. -/
def InMemoryTaskRepository.List (r : InMemoryTaskRepository) (filters : Filters) :
    Except GoError (List Task) :=
  .ok (listLoop filters r.tasks.entries [])

/-- The number of entries of the map, `len(r.tasks)`. -/
def InMemoryTaskRepository.size (r : InMemoryTaskRepository) : Nat := r.tasks.entries.length

/-! ## `internal/service/task_service.go` -/

/-- The Go struct `TaskService`: the repository it holds. The validator field
has no state; the table `unicode.Letter` it consults is the argument `Letter`
of the methods that validate. -/
structure TaskService where
  repo : InMemoryTaskRepository

/-- The constructor `NewTaskService`. -/
def NewTaskService (repo : InMemoryTaskRepository) : TaskService := ⟨repo⟩

/-- The struct literal with which `CreateTask` begins: the fields of the
request, and the zero values for `ID`, `CreatedAt` and `UpdatedAt`. -/
def CreateTaskRequest.toTask (req : CreateTaskRequest) : Task :=
  { ID := 0
    Title := req.Title
    Description := req.Description
    Category := req.Category
    DueDate := req.DueDate
    Priority := req.Priority
    Status := req.Status
    CreatedAt := 0
    UpdatedAt := 0 }

/-- The method `CreateTask`. `nowV` is the clock as the validator reads it,
`newID`, `now1` and `now2` are what `Create` draws. -/
def TaskService.CreateTask (Letter : Char → Bool)
    (loc : Location) (s : TaskService) (req : CreateTaskRequest)
    (nowV : Time) (newID : UUID) (now1 now2 : Time) : Except GoError Task × TaskService :=
  let task : Task := req.toTask
  match ValidateTask Letter loc nowV task with
  | some err => (.error err, s)
  | none =>
    match s.repo.Create task newID now1 now2 with
    | ((_, some err), repo) => (.error err, ⟨repo⟩)
    | ((task, none), repo) => (.ok task, ⟨repo⟩)

/-- The method `GetTask`. -/
def TaskService.GetTask (s : TaskService) (id : UUID) : Except GoError Task :=
  match s.repo.GetByID id with
  | .error err => .error err
  | .ok task => .ok task

/-- The method `UpdateTask`. `nowV` is the clock as the validator reads it and
`now` the one `Update` reads. -/
def TaskService.UpdateTask (Letter : Char → Bool) (loc : Location) (s : TaskService) (task : Task)
    (nowV now : Time) : Option GoError × TaskService :=
  match ValidateTask Letter loc nowV task with
  | some err => (some err, s)
  | none =>
    match s.repo.Update task now with
    | (some err, repo) => (some err, ⟨repo⟩)
    | (none, repo) => (none, ⟨repo⟩)

/-- The method `DeleteTask`. -/
def TaskService.DeleteTask (s : TaskService) (id : UUID) : Option GoError × TaskService :=
  match s.repo.Delete id with
  | (some err, repo) => (some err, ⟨repo⟩)
  | (none, repo) => (none, ⟨repo⟩)

/-- The method `DuplicateTask`. -/
def TaskService.DuplicateTask (s : TaskService) (id : UUID) (newID : UUID) (now1 now2 : Time) :
    Except GoError Task × TaskService :=
  match s.repo.Duplicate id newID now1 now2 with
  | (.error err, repo) => (.error err, ⟨repo⟩)
  | (.ok duplicatedTask, repo) => (.ok duplicatedTask, ⟨repo⟩)

/-- The method `ListTasks`. -/
def TaskService.ListTasks (s : TaskService) (filters : Filters) : Except GoError (List Task) :=
  match s.repo.List filters with
  | .error err => .error err
  | .ok tasks => .ok tasks

/-! ## Sequences of calls that create records -/

/-- A call of `CreateTask` or of `DuplicateTask`, with what the clock and
`uuid.New()` return during it. -/
inductive Call where
  | createTask (req : CreateTaskRequest) (nowV : Time) (newID : UUID) (now1 now2 : Time)
  | duplicateTask (id : UUID) (newID : UUID) (now1 now2 : Time)

/-- The value `uuid.New()` returns if the call gets to it. -/
def Call.newID : Call → UUID
  | .createTask _ _ newID _ _ => newID
  | .duplicateTask _ newID _ _ => newID

/-- One call: the identifier of the returned task when the call succeeds, and
the service afterwards. -/
def TaskService.step (Letter : Char → Bool)
    (loc : Location) (s : TaskService) : Call → Option UUID × TaskService
  | .createTask req nowV newID now1 now2 =>
    match s.CreateTask Letter loc req nowV newID now1 now2 with
    | (.ok task, s1) => (some task.ID, s1)
    | (.error _, s1) => (none, s1)
  | .duplicateTask id newID now1 now2 =>
    match s.DuplicateTask id newID now1 now2 with
    | (.ok task, s1) => (some task.ID, s1)
    | (.error _, s1) => (none, s1)

/-- A sequence of calls, one after the other: the identifiers the successful
calls returned, in order, and the service afterwards. -/
def TaskService.run (Letter : Char → Bool)
    (loc : Location) (s : TaskService) : List Call → List UUID × TaskService
  | [] => ([], s)
  | c :: cs =>
    let o := s.step Letter loc c
    let rest := o.2.run Letter loc cs
    (o.1.toList ++ rest.1, rest.2)

/-- Every successful call of the sequence drew an identifier that was not in
the repository at the time of the call. -/
def FreshIDs (Letter : Char → Bool) (loc : Location) (s : TaskService) : List Call → Prop
  | [] => True
  | c :: cs =>
    ((s.step Letter loc c).1.isSome → c.newID ∉ s.repo.tasks) ∧
      FreshIDs Letter loc (s.step Letter loc c).2 cs

/-! ## Sample data

Identifiers as `uuid.New()` produces them (version 4), a clock reading and a
task as the handler would pass it on. -/

/-- The identifier `9b1deb4d-3b7d-4bad-9bdd-2b0d7b3dcb6d`. -/
def sampleID1 : UUID := 0x9b1deb4d3b7d4bad9bdd2b0d7b3dcb6d

/-- The identifier `1b9d6bcd-bbfd-4b2d-9b5d-ab8dfbbd4bed`. -/
def sampleID2 : UUID := 0x1b9d6bcdbbfd4b2d9b5dab8dfbbd4bed

/-- The identifier `6ec0bd7f-11c0-43da-975e-2a8ad9ebae0b`. -/
def sampleID3 : UUID := 0x6ec0bd7f11c043da975e2a8ad9ebae0b

/-- The instant `2024-06-01T00:00:00Z`. -/
def sampleNow : Time := 63852796800000000000

/-- One hour, in nanoseconds. -/
def hour : Int := 3600 * 1000000000

/-- A table standing for `unicode.Letter` that holds no code point; the sample
data is ASCII, for which the table is never consulted. -/
def noLetters : Char → Bool := fun _ => false

/-- A request that passes validation at `sampleNow`. -/
def sampleRequest : CreateTaskRequest :=
  { Title := "Complete Project"
    Description := "Finish the report"
    Category := "Work"
    DueDate := sampleNow + 24 * hour
    Priority := PriorityHigh
    Status := StatusDone }

/-- The record `Create` stores for `sampleRequest` under `sampleID1`. -/
def sampleTask : Task :=
  { ID := sampleID1
    Title := "Complete Project"
    Description := "Finish the report"
    Category := "Work"
    DueDate := sampleNow + 24 * hour
    Priority := PriorityHigh
    Status := StatusDone
    CreatedAt := sampleNow
    UpdatedAt := sampleNow + 1 }

/-- The repository after `sampleTask` was created in an empty one. -/
def sampleRepo : InMemoryTaskRepository :=
  (NewInMemoryTaskRepository.Create sampleTask sampleID1 sampleNow (sampleNow + 1)).2

/-- A task with a title of 94 bytes, all ASCII. -/
def longTitleTask : Task :=
  { sampleTask with
    Title := "Prepare the quarterly financial report and send it to every regional office for a final review" }

/-- The repository after `longTitleTask` was created in an empty one. -/
def longTitleRepo : InMemoryTaskRepository :=
  (NewInMemoryTaskRepository.Create longTitleTask sampleID1 sampleNow (sampleNow + 1)).2

/-- A second request that passes validation at `sampleNow`. -/
def otherRequest : CreateTaskRequest :=
  { Title := "Write tests"
    Description := ""
    Category := ""
    DueDate := sampleNow + 48 * hour
    Priority := PriorityLow
    Status := StatusToDo }

/-- Two `CreateTask` calls during which `uuid.New()` returns the same value. -/
def repeatedIDCalls : List Call :=
  [Call.createTask sampleRequest sampleNow sampleID1 (sampleNow + 1) (sampleNow + 2),
   Call.createTask otherRequest (sampleNow + 3) sampleID1 (sampleNow + 4) (sampleNow + 5)]

/-- A `CreateTask` call and two `DuplicateTask` calls of the task it made,
with three different generated identifiers. -/
def distinctIDCalls : List Call :=
  [Call.createTask sampleRequest sampleNow sampleID1 (sampleNow + 1) (sampleNow + 2),
   Call.duplicateTask sampleID1 sampleID2 (sampleNow + 3) (sampleNow + 4),
   Call.duplicateTask sampleID1 sampleID3 (sampleNow + 5) (sampleNow + 6)]

/-- A task with an empty title whose due date is a day before `sampleNow`. -/
def emptyTitleTask : Task :=
  { sampleTask with Title := "", DueDate := sampleNow - 24 * hour }

/-- A text of 510 bytes. -/
def longText : String := String.join (List.replicate 51 "0123456789")

/-- A task with an accepted title in which every later field breaks its rule. -/
def onlyTitleValidTask : Task :=
  { sampleTask with
    Description := longText
    Category := "R&D 2024"
    Priority := "URGENT"
    Status := "ARCHIVED"
    DueDate := sampleNow - 24 * hour }

/-- A task whose title has 82 characters, most of them Cyrillic letters of two
bytes each, 154 bytes in all. -/
def cyrillicTitleTask : Task :=
  { sampleTask with
    Title := "Подготовить квартальный финансовый отчёт и разослать его во все региональные офисы" }

/-- The two tasks of `TestBatchValidate`: a valid one, then one with an empty
title and a due date in the past. -/
def batchTasks : List Task :=
  [{ sampleTask with Title := "Valid Task", Description := "A valid task", Category := "" },
   { sampleTask with
     Title := "", Description := "An invalid task", Category := "",
     DueDate := sampleNow - 24 * hour }]

/-- A clock that advances by one nanosecond from one reading to the next. -/
def tickingClock : Nat → Time := fun i => sampleNow + i

/-! ## The filter predicate of the specification -/

/-- The filter predicate as the specification words it: a task matches when,
for each of the keys `title`, `category`, `status`, `priority` and `due_date`
that is supplied, the value supplied is exactly the task's title (a string),
category (a string), status (a status), priority (a priority), due date (a
timestamp); any other key is ignored. -/
def specMatches (task : Task) (filters : Filters) : Bool :=
  (match filters.lookup "title" with
    | some v => decide (v = .string task.Title)
    | none => true) &&
  (match filters.lookup "category" with
    | some v => decide (v = .string task.Category)
    | none => true) &&
  (match filters.lookup "status" with
    | some v => decide (v = .status task.Status)
    | none => true) &&
  (match filters.lookup "priority" with
    | some v => decide (v = .priority task.Priority)
    | none => true) &&
  (match filters.lookup "due_date" with
    | some v => decide (v = .time task.DueDate)
    | none => true)

/-- The repository after `otherRequest` was created next to `sampleTask`. -/
def twoTaskRepo : InMemoryTaskRepository :=
  (sampleRepo.Create otherRequest.toTask sampleID2 (sampleNow + 4) (sampleNow + 5)).2

/-- The filter `status=TODO` as the handler builds it. -/
def todoFilter : Filters := AList.singleton "status" (.status "TODO")

/-- The filters `status=BLOCKED` and `priority=LOW`. -/
def blockedLowFilter : Filters :=
  (AList.singleton "status" (FilterValue.status "BLOCKED")).insert "priority" (.priority "LOW")

/-- The record `Create` stores for `otherRequest` in `twoTaskRepo`. -/
def otherTask : Task :=
  { otherRequest.toTask with
    ID := sampleID2, CreatedAt := sampleNow + 4, UpdatedAt := sampleNow + 5 }

/-! ## The repository with its pointers

The map holds `*models.Task` values, and `Create` and `Update` store the
pointer they are given. Where it matters which struct a pointer refers to, the
repository is the map from identifiers to addresses together with what the
struct at each address holds. -/

/-- The address of a `models.Task` struct. -/
abbrev Ptr := Nat

/-- The repository with its pointers: what the struct at each address holds,
and the map `tasks` from identifiers to addresses. -/
structure PointerRepository where
  deref : Ptr → Task
  tasks : AList (fun _ : UUID => Ptr)

/-- The method `Create` on the pointer `task`: the three assignments go
through the pointer, and the pointer itself is stored. -/
def PointerRepository.Create (r : PointerRepository) (task : Ptr) (newID : UUID)
    (now1 now2 : Time) : Option GoError × PointerRepository :=
  let deref := Function.update r.deref task { r.deref task with ID := newID }
  let deref := Function.update deref task { deref task with CreatedAt := now1 }
  let deref := Function.update deref task { deref task with UpdatedAt := now2 }
  (none, ⟨deref, r.tasks.insert (deref task).ID task⟩)

/-- The method `GetByID`: the stored pointer. -/
def PointerRepository.GetByID (r : PointerRepository) (id : UUID) : Except GoError Ptr :=
  match r.tasks.lookup id with
  | none => .error errTaskNotFound
  | some task => .ok task

/-- The method `Update` on the pointer `task`. -/
def PointerRepository.Update (r : PointerRepository) (task : Ptr) (now : Time) :
    Option GoError × PointerRepository :=
  match r.tasks.lookup (r.deref task).ID with
  | none => (some errTaskNotFound, r)
  | some _ =>
    let deref := Function.update r.deref task { r.deref task with UpdatedAt := now }
    (none, ⟨deref, r.tasks.insert (deref task).ID task⟩)

/-- The method `Delete`. -/
def PointerRepository.Delete (r : PointerRepository) (id : UUID) :
    Option GoError × PointerRepository :=
  match r.tasks.lookup id with
  | none => (some errTaskNotFound, r)
  | some _ => (none, ⟨r.deref, r.tasks.erase id⟩)

/-- The method `Duplicate`; `duplicatedTask` is the address of the struct the
composite literal `&models.Task{...}` makes. -/
def PointerRepository.Duplicate (r : PointerRepository) (id : UUID) (newID : UUID)
    (now1 now2 : Time) (duplicatedTask : Ptr) : Except GoError Ptr × PointerRepository :=
  match r.tasks.lookup id with
  | none => (.error errTaskNotFound, r)
  | some originalTask =>
    let deref := Function.update r.deref duplicatedTask
      { ID := newID
        Title := (r.deref originalTask).Title ++ " (Copy)"
        Description := (r.deref originalTask).Description
        Category := (r.deref originalTask).Category
        DueDate := (r.deref originalTask).DueDate
        Priority := (r.deref originalTask).Priority
        Status := StatusToDo
        CreatedAt := now1
        UpdatedAt := now2 }
    (.ok duplicatedTask, ⟨deref, r.tasks.insert (deref duplicatedTask).ID duplicatedTask⟩)

/-- The method `List`: the loop of `listLoop` over the structs the stored
pointers refer to. -/
def PointerRepository.List (r : PointerRepository) (filters : Filters) :
    Except GoError (List Task) :=
  .ok (listLoop filters (r.tasks.entries.map fun e => ⟨e.1, r.deref e.2⟩) [])

/-- Whether the map holds the address `task` under some identifier. -/
def holdsPointer (r : PointerRepository) (task : Ptr) : Bool :=
  r.tasks.entries.any fun e => decide (e.2 = task)

/-- What happens to the repository and the structs: a call of one of the four
methods that write to the map, with what the clock and `uuid.New()` return
during it, or an assignment by a caller to a struct. -/
inductive PointerCall where
  | assign (task : Ptr) (content : Task)
  | create (task : Ptr) (newID : UUID) (now1 now2 : Time)
  | update (task : Ptr) (now : Time)
  | delete (id : UUID)
  | duplicate (id : UUID) (newID : UUID) (now1 now2 : Time) (duplicatedTask : Ptr)

/-- The repository after one call. -/
def afterPointerCall (r : PointerRepository) : PointerCall → PointerRepository
  | .assign task content => ⟨Function.update r.deref task content, r.tasks⟩
  | .create task newID now1 now2 => (r.Create task newID now1 now2).2
  | .update task now => (r.Update task now).2
  | .delete id => (r.Delete id).2
  | .duplicate id newID now1 now2 duplicatedTask =>
    (r.Duplicate id newID now1 now2 duplicatedTask).2

/-- The repository after a sequence of calls, the first call first. -/
def afterPointerCalls (r : PointerRepository) : List PointerCall → PointerRepository
  | [] => r
  | c :: cs => afterPointerCalls (afterPointerCall r c) cs

/-- The condition on one call: a caller that assigns to a struct the map
holds leaves its `ID` as it is, `Create` is given a pointer the map does not
hold, and the struct `Duplicate` makes is none the map holds. -/
def CallAllowed (r : PointerRepository) : PointerCall → Prop
  | .assign task content => holdsPointer r task = false ∨ content.ID = (r.deref task).ID
  | .create task _ _ _ => holdsPointer r task = false
  | .update _ _ => True
  | .delete _ => True
  | .duplicate _ _ _ _ duplicatedTask => holdsPointer r duplicatedTask = false

instance CallAllowed.decidable (r : PointerRepository) :
    (c : PointerCall) → Decidable (CallAllowed r c)
  | .assign task content =>
    inferInstanceAs (Decidable (holdsPointer r task = false ∨ content.ID = (r.deref task).ID))
  | .create task _ _ _ => inferInstanceAs (Decidable (holdsPointer r task = false))
  | .update _ _ => isTrue trivial
  | .delete _ => isTrue trivial
  | .duplicate _ _ _ _ duplicatedTask =>
    inferInstanceAs (Decidable (holdsPointer r duplicatedTask = false))

/-- The condition on a sequence of calls: each call is allowed in the
repository it is made on. -/
def CallsAllowed (r : PointerRepository) : List PointerCall → Prop
  | [] => True
  | c :: cs => CallAllowed r c ∧ CallsAllowed (afterPointerCall r c) cs

instance CallsAllowed.decidable :
    (r : PointerRepository) → (calls : List PointerCall) → Decidable (CallsAllowed r calls)
  | _, [] => isTrue trivial
  | r, c :: cs =>
    haveI := CallsAllowed.decidable (afterPointerCall r c) cs
    inferInstanceAs (Decidable (CallAllowed r c ∧ CallsAllowed (afterPointerCall r c) cs))

/-- The empty repository, no struct of which holds anything yet. -/
def NewPointerRepository : PointerRepository :=
  ⟨fun _ =>
    { ID := 0, Title := "", Description := "", Category := "", DueDate := 0, Priority := "",
      Status := "", CreatedAt := 0, UpdatedAt := 0 }, ∅⟩

/-- A caller fills one struct, at address 1, and passes it to `Create` twice. -/
def samePointerCalls : List PointerCall :=
  [PointerCall.assign 1 sampleRequest.toTask,
   PointerCall.create 1 sampleID1 sampleNow (sampleNow + 1),
   PointerCall.create 1 sampleID2 (sampleNow + 2) (sampleNow + 3)]

/-- Calls of all four methods, each `Create` on a struct of its own. -/
def mixedCalls : List PointerCall :=
  [PointerCall.assign 1 sampleRequest.toTask,
   PointerCall.create 1 sampleID1 sampleNow (sampleNow + 1),
   PointerCall.duplicate sampleID1 sampleID2 (sampleNow + 2) (sampleNow + 3) 2,
   PointerCall.update 2 (sampleNow + 4),
   PointerCall.assign 3 otherRequest.toTask,
   PointerCall.create 3 sampleID3 (sampleNow + 5) (sampleNow + 6),
   PointerCall.delete sampleID1]

/-- The filter `status=TODO` with the value supplied as a plain string. -/
def plainStringStatusFilter : Filters := AList.singleton "status" (.string "TODO")

/-- The instant `2024-02-29T20:00:00Z`, which is `2024-03-01T06:00` ten hours
east of UTC. -/
def leapDayEvening : Time := 63844833600000000000

/-- The instant `2029-03-01T00:00:00Z`. -/
def marchFirst2029 : Time := 64002614400000000000

/-- A table standing for `unicode.Letter` that holds the range U+0410 to
U+044F, the letters of the Russian alphabet without `ё`, all of which
`unicode.Letter` holds. -/
def russianLetters : Char → Bool := fun c => 0x410 ≤ c.toNat && c.toNat ≤ 0x44F

/-- A task whose category has 38 characters, Russian letters and spaces, and
73 bytes. -/
def cyrillicCategoryTask : Task :=
  { sampleTask with Category := "Планирование и организация мероприятий" }

/-! ## Lemmas on the map and on strings -/

theorem len_append (a b : String) : len (a ++ b) = len a + len b := by
  cases a with
  | mk as =>
    cases b with
    | mk bs => exact String.utf8Len_append as bs

theorem mem_of_lookup_eq_some {r : InMemoryTaskRepository} {id : UUID} {t : Task}
    (h : r.tasks.lookup id = some t) : id ∈ r.tasks := by
  rw [← AList.lookup_isSome, h]; rfl

theorem lookup_insert_of_ne (m : AList (fun _ : UUID => Task)) (k a : UUID) (t : Task)
    (h : k ≠ a) : (m.insert a t).lookup k = m.lookup k :=
  AList.lookup_insert_ne h

/-- What one `Duplicate` call on a present identifier returns and stores,
whatever the generated identifier. -/
theorem Duplicate_of_lookup_any (r : InMemoryTaskRepository) (id newID : UUID)
    (now1 now2 : Time) (original : Task) (hid : r.tasks.lookup id = some original) :
    ∃ dup r1, r.Duplicate id newID now1 now2 = (Except.ok dup, r1) ∧
      dup.Title = original.Title ++ " (Copy)" ∧ dup.Status = StatusToDo ∧
      dup.Description = original.Description ∧ dup.Category = original.Category ∧
      dup.DueDate = original.DueDate ∧ dup.Priority = original.Priority ∧
      r1.tasks.lookup newID = some dup := by
  have hrun : r.Duplicate id newID now1 now2 =
      (Except.ok { original with
          ID := newID, Title := original.Title ++ " (Copy)", Status := StatusToDo,
          CreatedAt := now1, UpdatedAt := now2 },
        ⟨r.tasks.insert newID { original with
          ID := newID, Title := original.Title ++ " (Copy)", Status := StatusToDo,
          CreatedAt := now1, UpdatedAt := now2 }⟩) := by
    simp only [InMemoryTaskRepository.Duplicate, hid]
  exact ⟨_, _, hrun, rfl, rfl, rfl, rfl, rfl, rfl, AList.lookup_insert _⟩

/-- What one `Duplicate` call on a present identifier does, the generated
identifier being new. -/
theorem Duplicate_of_lookup (r : InMemoryTaskRepository) (id newID : UUID) (now1 now2 : Time)
    (original : Task) (hid : r.tasks.lookup id = some original) (hnew : newID ∉ r.tasks) :
    ∃ dup r1, r.Duplicate id newID now1 now2 = (Except.ok dup, r1) ∧
      dup.Title = original.Title ++ " (Copy)" ∧ dup.Status = StatusToDo ∧
      dup.ID = newID ∧ dup.ID ≠ id ∧
      dup.Description = original.Description ∧ dup.Category = original.Category ∧
      dup.DueDate = original.DueDate ∧ dup.Priority = original.Priority ∧
      r1.tasks.entries = ⟨dup.ID, dup⟩ :: r.tasks.entries ∧
      r1.tasks.lookup id = some original ∧
      (∀ k, k ≠ dup.ID → r1.tasks.lookup k = r.tasks.lookup k) ∧
      r1.size = r.size + 1 := by
  have hne : newID ≠ id := fun h => hnew (h ▸ mem_of_lookup_eq_some hid)
  have hrun : r.Duplicate id newID now1 now2 =
      (Except.ok { original with
          ID := newID, Title := original.Title ++ " (Copy)", Status := StatusToDo,
          CreatedAt := now1, UpdatedAt := now2 },
        ⟨r.tasks.insert newID { original with
          ID := newID, Title := original.Title ++ " (Copy)", Status := StatusToDo,
          CreatedAt := now1, UpdatedAt := now2 }⟩) := by
    simp only [InMemoryTaskRepository.Duplicate, hid]
  refine ⟨_, _, hrun, rfl, rfl, rfl, hne, rfl, rfl, rfl, rfl, ?_, ?_, ?_, ?_⟩
  · exact AList.insert_entries_of_neg hnew
  · show (r.tasks.insert newID _).lookup id = some original
    rw [AList.lookup_insert_ne (Ne.symm hne), hid]
  · intro k hk
    exact AList.lookup_insert_ne hk
  · show (r.tasks.insert newID _).entries.length = r.tasks.entries.length + 1
    rw [AList.insert_entries_of_neg hnew]; rfl

/-! ## Duplicate -/

/-- C1. For every repository holding `original` under `id`, and a generated
identifier that is not yet in the repository, `Duplicate` succeeds; the record
it returns has the original's title followed by `" (Copy)"`, status `TODO`, an
identifier other than `id`, and the original's description, category, due
date and priority; the repository then holds the new record and exactly the
records it held before, the original among them unchanged. A second
`Duplicate` of the same task, again with a new identifier, gives another such
record under a different identifier and leaves two records more than before
the first call (three when the repository held the original alone). -/
theorem Duplicate_adds_copy (r : InMemoryTaskRepository) (id newID : UUID) (now1 now2 : Time)
    (original : Task) (hid : r.tasks.lookup id = some original) (hnew : newID ∉ r.tasks) :
    ∃ dup r1, r.Duplicate id newID now1 now2 = (Except.ok dup, r1) ∧
      dup.Title = original.Title ++ " (Copy)" ∧ dup.Status = StatusToDo ∧ dup.ID ≠ id ∧
      dup.Description = original.Description ∧ dup.Category = original.Category ∧
      dup.DueDate = original.DueDate ∧ dup.Priority = original.Priority ∧
      r1.tasks.entries = ⟨dup.ID, dup⟩ :: r.tasks.entries ∧
      r1.tasks.lookup id = some original ∧
      r1.size = r.size + 1 ∧
      ∀ (newID2 : UUID) (now3 now4 : Time), newID2 ∉ r1.tasks →
        ∃ dup2 r2, r1.Duplicate id newID2 now3 now4 = (Except.ok dup2, r2) ∧
          dup2.Title = original.Title ++ " (Copy)" ∧ dup2.Status = StatusToDo ∧
          dup2.ID ≠ id ∧ dup2.ID ≠ dup.ID ∧
          r2.tasks.entries = ⟨dup2.ID, dup2⟩ :: ⟨dup.ID, dup⟩ :: r.tasks.entries ∧
          r2.tasks.lookup id = some original ∧
          r2.size = r.size + 2 := by
  obtain ⟨dup, r1, hrun, hT, hS, hI, hne, hD, hC, hDue, hP, hent, horig, -, hsize⟩ :=
    Duplicate_of_lookup r id newID now1 now2 original hid hnew
  refine ⟨dup, r1, hrun, hT, hS, hne, hD, hC, hDue, hP, hent, horig, hsize, ?_⟩
  intro newID2 now3 now4 hnew2
  obtain ⟨dup2, r2, hrun2, hT2, hS2, hI2, hne2, -, -, -, -, hent2, horig2, -, hsize2⟩ :=
    Duplicate_of_lookup r1 id newID2 now3 now4 original horig hnew2
  refine ⟨dup2, r2, hrun2, hT2, hS2, hne2, ?_, ?_, horig2, ?_⟩
  · intro h
    apply hnew2
    rw [← hI2, h, AList.mem_keys, AList.keys, hent]
    simp
  · rw [hent2, hent]
  · rw [hsize2, hsize]

theorem Duplicate_adds_copy_witness :
    sampleRepo.tasks.lookup sampleID1 = some sampleTask ∧ sampleID2 ∉ sampleRepo.tasks ∧
    ∃ dup r1, sampleRepo.Duplicate sampleID1 sampleID2 (sampleNow + 2) (sampleNow + 3)
        = (Except.ok dup, r1) ∧
      dup.Title = "Complete Project (Copy)" ∧ dup.Status = "TODO" ∧ dup.ID ≠ sampleID1 ∧
      r1.tasks.lookup sampleID1 = some sampleTask ∧ r1.size = 2 ∧
      ∃ dup2 r2, r1.Duplicate sampleID1 sampleID3 (sampleNow + 4) (sampleNow + 5)
          = (Except.ok dup2, r2) ∧
        dup2.Title = "Complete Project (Copy)" ∧ dup2.Status = "TODO" ∧ dup2.ID ≠ dup.ID ∧
        r2.size = 3 := by
  have h1 : sampleRepo.tasks.lookup sampleID1 = some sampleTask := by decide
  have h2 : sampleID2 ∉ sampleRepo.tasks := by decide
  obtain ⟨dup, r1, hrun, hT, hS, hne, -, -, -, -, -, horig, hsize, htwice⟩ :=
    Duplicate_adds_copy sampleRepo sampleID1 sampleID2 (sampleNow + 2) (sampleNow + 3)
      sampleTask h1 h2
  have hr1 : r1 = (sampleRepo.Duplicate sampleID1 sampleID2 (sampleNow + 2) (sampleNow + 3)).2 := by
    rw [hrun]
  have h3 : sampleID3 ∉ r1.tasks := by rw [hr1]; decide
  obtain ⟨dup2, r2, hrun2, hT2, hS2, -, hne2, -, -, hsize2⟩ :=
    htwice sampleID3 (sampleNow + 4) (sampleNow + 5) h3
  exact ⟨h1, h2, dup, r1, hrun, hT, hS, hne, horig, hsize, dup2, r2, hrun2, hT2, hS2, hne2, hsize2⟩

theorem letterCount_pos (p : Char → Bool) (l : List Char) (k : Nat) :
    0 < l.foldl (fun n char => if p char then n + 1 else n) k ↔ 0 < k ∨ l.any p = true := by
  induction l generalizing k with
  | nil => simp
  | cons c cs ih =>
    rw [List.foldl_cons, ih]
    by_cases hc : p c = true
    · simp [hc]
    · simp [hc]

theorem containsMeaningfulCharacters_eq_any (Letter : Char → Bool) (s : String) :
    containsMeaningfulCharacters Letter s = s.data.any (IsLetter Letter) := by
  have h := letterCount_pos (IsLetter Letter) s.data 0
  unfold containsMeaningfulCharacters
  by_cases ha : s.data.any (IsLetter Letter) = true
  · rw [ha]; simpa using h.2 (Or.inr ha)
  · have hz : ¬ 0 < s.data.foldl (fun n char => if IsLetter Letter char then n + 1 else n) 0 := by
      intro hpos
      rcases h.1 hpos with h0 | h1
      · exact absurd h0 (by decide)
      · exact ha h1
    simp only [Bool.not_eq_true] at ha
    rw [ha]
    simpa using hz

theorem containsMeaningfulCharacters_append (Letter : Char → Bool) (a b : String)
    (h : containsMeaningfulCharacters Letter a = true) :
    containsMeaningfulCharacters Letter (a ++ b) = true := by
  rw [containsMeaningfulCharacters_eq_any] at h ⊢
  rw [String.data_append, List.any_append, h]
  rfl

/-- From an accepted title of at most 93 bytes `Duplicate` makes an accepted title. -/
theorem validateTitle_copy (Letter : Char → Bool) (title : String)
    (hok : validateTitle Letter title = none) (hlen : len title ≤ 93) :
    validateTitle Letter (title ++ " (Copy)") = none := by
  have hm : containsMeaningfulCharacters Letter title = true := by
    unfold validateTitle at hok
    split_ifs at hok with h1 h2 h3
    simpa using h3
  have hl : len (title ++ " (Copy)") = len title + 7 := by
    rw [len_append]; rfl
  have hne : title ++ " (Copy)" ≠ "" := by
    intro h
    have h0 : len (title ++ " (Copy)") = 0 := by rw [h]; rfl
    omega
  unfold validateTitle
  rw [if_neg hne, if_neg (by omega), containsMeaningfulCharacters_append Letter _ _ hm]
  rfl

/-- The copy of an accepted task whose title has at most 93 bytes is accepted
at the same clock reading. -/
theorem Duplicate_valid_of_short_title (Letter : Char → Bool) (loc : Location) (now : Time)
    (r : InMemoryTaskRepository) (id newID : UUID) (now1 now2 : Time) (original : Task)
    (hid : r.tasks.lookup id = some original)
    (hvalid : ValidateTask Letter loc now original = none) (hlen : len original.Title ≤ 93) :
    ∃ dup r1, r.Duplicate id newID now1 now2 = (Except.ok dup, r1) ∧
      r1.tasks.lookup newID = some dup ∧ ValidateTask Letter loc now dup = none := by
  obtain ⟨dup, r1, hrun, hT, hS, hD, hC, hDue, hP, hent⟩ :=
    Duplicate_of_lookup_any r id newID now1 now2 original hid
  refine ⟨dup, r1, hrun, hent, ?_⟩
  unfold ValidateTask at hvalid ⊢
  rw [hT, hD, hC, hDue, hP]
  cases h1 : validateTitle Letter original.Title with
  | some e => simp [h1] at hvalid
  | none =>
    cases h2 : validateDescription original.Description with
    | some e => simp [h1, h2] at hvalid
    | none =>
      cases h3 : validateCategory Letter original.Category with
      | some e => simp [h1, h2, h3] at hvalid
      | none =>
        cases h4 : validatePriority original.Priority with
        | some e => simp [h1, h2, h3, h4] at hvalid
        | none =>
          cases h6 : validateDueDate loc now original.DueDate with
          | some e =>
            cases h5 : validateStatus original.Status <;> simp [h1, h2, h3, h4, h5, h6] at hvalid
          | none =>
            have h5 : validateStatus dup.Status = none := by rw [hS]; decide
            simp only [validateTitle_copy Letter _ h1 hlen, h2, h3, h4, h5, h6]

/-- C2, at the failing input. `longTitleTask`, whose title has 94 bytes, passes
`ValidateTask`; `DuplicateTask` stores a copy of it whose title has 101 bytes,
and `ValidateTask` at the same clock reading rejects the copy with
`ErrTitleTooLong`. -/
theorem DuplicateTask_stores_rejected_title :
    ∀ Letter : Char → Bool,
      longTitleRepo.tasks.lookup sampleID1 = some longTitleTask ∧
      ValidateTask Letter utcLoc sampleNow longTitleTask = none ∧
      ∃ dup s1, (NewTaskService longTitleRepo).DuplicateTask sampleID1 sampleID2
          (sampleNow + 2) (sampleNow + 3) = (Except.ok dup, s1) ∧
        s1.repo.tasks.lookup sampleID2 = some dup ∧ len dup.Title = 101 ∧
        ValidateTask Letter utcLoc sampleNow dup = some (.sentinel .ErrTitleTooLong) := by
  intro Letter
  exact ⟨rfl, rfl, _, _, rfl, rfl, rfl, rfl⟩

/-! ## Update -/

/-- What `Update` returns and stores when the identifier is present. -/
theorem Update_of_mem (r : InMemoryTaskRepository) (t : Task) (now : Time)
    (h : t.ID ∈ r.tasks) :
    r.Update t now = (none, ⟨r.tasks.insert t.ID { t with UpdatedAt := now }⟩) := by
  obtain ⟨old, hold⟩ := Option.isSome_iff_exists.1 (AList.lookup_isSome.2 h)
  simp only [InMemoryTaskRepository.Update, hold]

/-- Writing under a key that is present keeps the number of entries. -/
theorem length_insert_of_mem (m : AList (fun _ : UUID => Task)) (k : UUID) (t : Task)
    (h : k ∈ m) : (m.insert k t).entries.length = m.entries.length := by
  have h1 : (m.insert k t).keys.length = m.keys.length := by
    rw [AList.keys_insert, List.length_cons, List.length_erase_of_mem (AList.mem_keys.1 h)]
    have : 0 < m.keys.length := List.length_pos_of_mem (AList.mem_keys.1 h)
    omega
  simpa [AList.keys, List.keys] using h1

/-- C3, refuted as stated. The repository holds `sampleTask`, created at
`sampleNow`; `Update` with a task of the same identifier whose `CreatedAt` is
the zero time succeeds, and the record then stored has the zero time as its
`CreatedAt`, not the creation time of the record it replaced. -/
theorem Update_overwrites_CreatedAt :
    sampleRepo.tasks.lookup sampleID1 = some sampleTask ∧ sampleTask.CreatedAt = sampleNow ∧
    ∃ r1 stored,
      sampleRepo.Update { sampleTask with Title := "Renamed", CreatedAt := 0 } (sampleNow + 9)
        = (none, r1) ∧
      r1.tasks.lookup sampleID1 = some stored ∧ stored.CreatedAt = 0 ∧
      stored.CreatedAt ≠ sampleTask.CreatedAt := by
  exact ⟨by decide, rfl, _,
    { sampleTask with Title := "Renamed", CreatedAt := 0, UpdatedAt := sampleNow + 9 },
    rfl, by decide, rfl, by decide⟩

/-- C3, amended. For every repository holding a record under `t.ID`, `Update`
of `t` succeeds and the record then stored under `t.ID` has the `CreatedAt`
that `t` carries. -/
theorem Update_stores_input_CreatedAt (r : InMemoryTaskRepository) (t : Task) (now : Time)
    (old : Task) (h : r.tasks.lookup t.ID = some old) :
    ∃ r1 stored, r.Update t now = (none, r1) ∧ r1.tasks.lookup t.ID = some stored ∧
      stored.CreatedAt = t.CreatedAt :=
  ⟨_, { t with UpdatedAt := now }, Update_of_mem r t now (mem_of_lookup_eq_some h),
    AList.lookup_insert _, rfl⟩

theorem Update_stores_input_CreatedAt_witness :
    sampleRepo.tasks.lookup sampleID1 = some sampleTask ∧
    ∃ r1 stored,
      sampleRepo.Update { sampleTask with Title := "Renamed", CreatedAt := 5 } (sampleNow + 9)
        = (none, r1) ∧
      r1.tasks.lookup sampleID1 = some stored ∧ stored.CreatedAt = 5 :=
  ⟨by decide, Update_stores_input_CreatedAt sampleRepo
    { sampleTask with Title := "Renamed", CreatedAt := 5 } (sampleNow + 9) sampleTask (by decide)⟩

/-- C4. For every repository containing `t.ID`, `Update` of `t` succeeds;
`GetByID` of `t.ID` then returns a record with the title, description,
category, due date, priority and status of `t` and with the clock reading of
the call as `UpdatedAt`; the same identifiers are stored as before, as many,
and every record under another identifier is the one that was there. -/
theorem Update_replaces_record (r : InMemoryTaskRepository) (t : Task) (now : Time)
    (h : t.ID ∈ r.tasks) :
    ∃ r1 stored, r.Update t now = (none, r1) ∧ r1.GetByID t.ID = Except.ok stored ∧
      stored.Title = t.Title ∧ stored.Description = t.Description ∧
      stored.Category = t.Category ∧ stored.DueDate = t.DueDate ∧
      stored.Priority = t.Priority ∧ stored.Status = t.Status ∧ stored.UpdatedAt = now ∧
      (∀ k, k ∈ r1.tasks ↔ k ∈ r.tasks) ∧ r1.size = r.size ∧
      ∀ k, k ≠ t.ID → r1.tasks.lookup k = r.tasks.lookup k := by
  refine ⟨_, { t with UpdatedAt := now }, Update_of_mem r t now h, ?_,
    rfl, rfl, rfl, rfl, rfl, rfl, rfl, ?_, ?_, ?_⟩
  · simp only [InMemoryTaskRepository.GetByID, AList.lookup_insert]
  · intro k
    rw [AList.mem_insert]
    constructor
    · rintro (rfl | hk)
      · exact h
      · exact hk
    · exact Or.inr
  · exact length_insert_of_mem r.tasks t.ID _ h
  · intro k hk
    exact AList.lookup_insert_ne hk

theorem Update_replaces_record_witness :
    sampleID1 ∈ sampleRepo.tasks ∧
    ∃ r1 stored,
      sampleRepo.Update { sampleTask with Title := "Renamed", Description := "", Status := "TODO" }
        (sampleNow + 9) = (none, r1) ∧
      r1.GetByID sampleID1 = Except.ok stored ∧ stored.Title = "Renamed" ∧
      stored.Description = "" ∧ stored.Status = "TODO" ∧ stored.UpdatedAt = sampleNow + 9 ∧
      r1.size = 1 := by
  have h : sampleID1 ∈ sampleRepo.tasks := by decide
  obtain ⟨r1, stored, hrun, hget, hT, hD, -, -, -, hS, hU, -, hsize, -⟩ :=
    Update_replaces_record sampleRepo
      { sampleTask with Title := "Renamed", Description := "", Status := "TODO" } (sampleNow + 9) h
  exact ⟨h, r1, stored, hrun, hget, hT, hD, hS, hU, hsize⟩

/-- C5. For every repository and every task whose identifier is not in it,
`Update` fails with the error `task not found` and the repository afterwards
is the repository before: the same identifiers with the same records. -/
theorem Update_absent_fails (r : InMemoryTaskRepository) (t : Task) (now : Time)
    (h : t.ID ∉ r.tasks) :
    r.Update t now = (some errTaskNotFound, r) ∧
      ∀ k, (r.Update t now).2.tasks.lookup k = r.tasks.lookup k := by
  have hrun : r.Update t now = (some errTaskNotFound, r) := by
    simp only [InMemoryTaskRepository.Update, AList.lookup_eq_none.2 h]
  exact ⟨hrun, fun k => by rw [hrun]⟩

theorem Update_absent_fails_witness :
    sampleID2 ∉ sampleRepo.tasks ∧
    sampleRepo.Update { sampleTask with ID := sampleID2 } (sampleNow + 9)
      = (some errTaskNotFound, sampleRepo) ∧
    ∀ k, (sampleRepo.Update { sampleTask with ID := sampleID2 } (sampleNow + 9)).2.tasks.lookup k
      = sampleRepo.tasks.lookup k :=
  ⟨by decide,
    Update_absent_fails sampleRepo { sampleTask with ID := sampleID2 } (sampleNow + 9) (by decide)⟩

/-! ## Create and GetByID -/

/-- The record `Create` makes of `t`: the identifier and both timestamps are
set, the other fields are those of `t`. -/
theorem Create_eq (r : InMemoryTaskRepository) (t : Task) (newID : UUID) (now1 now2 : Time) :
    r.Create t newID now1 now2 =
      (({ t with ID := newID, CreatedAt := now1, UpdatedAt := now2 }, none),
        ⟨r.tasks.insert newID { t with ID := newID, CreatedAt := now1, UpdatedAt := now2 }⟩) :=
  rfl

theorem GetByID_of_lookup (r : InMemoryTaskRepository) (id : UUID) (t : Task)
    (h : r.tasks.lookup id = some t) : r.GetByID id = Except.ok t := by
  simp only [InMemoryTaskRepository.GetByID, h]

theorem GetByID_of_not_mem (r : InMemoryTaskRepository) (id : UUID) (h : id ∉ r.tasks) :
    r.GetByID id = Except.error errTaskNotFound := by
  simp only [InMemoryTaskRepository.GetByID, AList.lookup_eq_none.2 h]

/-- C6. For every repository and every task, `Create` returns no error, and
`GetByID` of the identifier it assigned then succeeds with the record made,
which has the title, description, category, due date, priority and status of
the task given; and in every repository `GetByID` of an identifier that is not
stored fails with the error `task not found`. -/
theorem Create_then_GetByID (r : InMemoryTaskRepository) (t : Task) (newID : UUID)
    (now1 now2 : Time) :
    (∃ created r1, r.Create t newID now1 now2 = ((created, none), r1) ∧
      r1.GetByID created.ID = Except.ok created ∧
      created.Title = t.Title ∧ created.Description = t.Description ∧
      created.Category = t.Category ∧ created.DueDate = t.DueDate ∧
      created.Priority = t.Priority ∧ created.Status = t.Status) ∧
    ∀ (r0 : InMemoryTaskRepository) (id : UUID), id ∉ r0.tasks →
      r0.GetByID id = Except.error errTaskNotFound := by
  refine ⟨⟨{ t with ID := newID, CreatedAt := now1, UpdatedAt := now2 }, _, Create_eq r t newID now1 now2,
    ?_, rfl, rfl, rfl, rfl, rfl, rfl⟩, fun r0 id h => GetByID_of_not_mem r0 id h⟩
  exact GetByID_of_lookup _ _ _ (AList.lookup_insert _)

theorem Create_then_GetByID_witness :
    sampleID3 ∉ sampleRepo.tasks ∧
    (∃ created r1,
      sampleRepo.Create sampleRequest.toTask sampleID2 (sampleNow + 2) (sampleNow + 3)
        = ((created, none), r1) ∧
      r1.GetByID created.ID = Except.ok created ∧ created.Title = "Complete Project") ∧
    sampleRepo.GetByID sampleID3 = Except.error errTaskNotFound := by
  obtain ⟨⟨created, r1, hrun, hget, hT, -⟩, hnot⟩ :=
    Create_then_GetByID sampleRepo sampleRequest.toTask sampleID2 (sampleNow + 2) (sampleNow + 3)
  have h : sampleID3 ∉ sampleRepo.tasks := by decide
  exact ⟨h, ⟨created, r1, hrun, hget, hT⟩, hnot sampleRepo sampleID3 h⟩

/-! ## CreateTask -/

theorem CreateTask_of_invalid (Letter : Char → Bool)
    (loc : Location) (s : TaskService) (req : CreateTaskRequest)
    (nowV : Time) (newID : UUID) (now1 now2 : Time) (err : GoError)
    (h : ValidateTask Letter loc nowV req.toTask = some err) :
    s.CreateTask Letter loc req nowV newID now1 now2 = (Except.error err, s) := by
  simp only [TaskService.CreateTask, h]

theorem CreateTask_of_valid (Letter : Char → Bool)
    (loc : Location) (s : TaskService) (req : CreateTaskRequest)
    (nowV : Time) (newID : UUID) (now1 now2 : Time)
    (h : ValidateTask Letter loc nowV req.toTask = none) :
    s.CreateTask Letter loc req nowV newID now1 now2 =
      (Except.ok { req.toTask with ID := newID, CreatedAt := now1, UpdatedAt := now2 },
        ⟨⟨s.repo.tasks.insert newID
          { req.toTask with ID := newID, CreatedAt := now1, UpdatedAt := now2 }⟩⟩) := by
  simp only [TaskService.CreateTask, h, Create_eq]

/-- C7, refuted as stated. `CreateTask` of a valid request, the clock having
advanced by one nanosecond between the two readings `Create` takes, succeeds
and returns and stores a record whose `CreatedAt` and `UpdatedAt` differ. -/
theorem CreateTask_timestamps_differ :
    ∃ created s1,
      (NewTaskService NewInMemoryTaskRepository).CreateTask noLetters utcLoc sampleRequest sampleNow
        sampleID1 (sampleNow + 1) (sampleNow + 2) = (Except.ok created, s1) ∧
      s1.repo.tasks.lookup created.ID = some created ∧
      created.CreatedAt ≠ created.UpdatedAt :=
  ⟨{ sampleRequest.toTask with
      ID := sampleID1, CreatedAt := sampleNow + 1, UpdatedAt := sampleNow + 2 },
    _, by rfl, by decide, by decide⟩

/-- C7, amended. For every request that passes validation, the record
`CreateTask` returns and stores has the first clock reading of `Create` as
`CreatedAt` and the second as `UpdatedAt`; so the two are equal exactly when
the two readings are, and `CreatedAt` is not after `UpdatedAt` when the clock
did not go back between the readings. -/
theorem CreateTask_timestamps (Letter : Char → Bool)
    (loc : Location) (s : TaskService) (req : CreateTaskRequest)
    (nowV : Time) (newID : UUID) (now1 now2 : Time)
    (h : ValidateTask Letter loc nowV req.toTask = none) :
    ∃ created s1, s.CreateTask Letter loc req nowV newID now1 now2 = (Except.ok created, s1) ∧
      s1.repo.tasks.lookup created.ID = some created ∧
      created.CreatedAt = now1 ∧ created.UpdatedAt = now2 ∧
      (created.CreatedAt = created.UpdatedAt ↔ now1 = now2) ∧
      (now1 ≤ now2 → created.CreatedAt ≤ created.UpdatedAt) :=
  ⟨{ req.toTask with ID := newID, CreatedAt := now1, UpdatedAt := now2 }, _,
    CreateTask_of_valid Letter loc s req nowV newID now1 now2 h, AList.lookup_insert _,
    rfl, rfl, Iff.rfl, fun hle => hle⟩

theorem CreateTask_timestamps_witness :
    ValidateTask noLetters utcLoc sampleNow sampleRequest.toTask = none ∧
    ∃ created s1,
      (NewTaskService sampleRepo).CreateTask noLetters utcLoc sampleRequest sampleNow sampleID2
        (sampleNow + 7) (sampleNow + 7) = (Except.ok created, s1) ∧
      s1.repo.tasks.lookup created.ID = some created ∧
      created.CreatedAt = sampleNow + 7 ∧ created.UpdatedAt = sampleNow + 7 ∧
      created.CreatedAt = created.UpdatedAt := by
  have h : ValidateTask noLetters utcLoc sampleNow sampleRequest.toTask = none := by decide
  obtain ⟨created, s1, hrun, hst, hc, hu, hiff, -⟩ :=
    CreateTask_timestamps noLetters utcLoc (NewTaskService sampleRepo) sampleRequest sampleNow sampleID2
      (sampleNow + 7) (sampleNow + 7) h
  exact ⟨h, created, s1, hrun, hst, hc, hu, hiff.2 rfl⟩

/-! ## Identifiers over a sequence of calls -/

theorem DuplicateTask_eq (s : TaskService) (id newID : UUID) (now1 now2 : Time) :
    s.DuplicateTask id newID now1 now2 =
      ((s.repo.Duplicate id newID now1 now2).1, ⟨(s.repo.Duplicate id newID now1 now2).2⟩) := by
  unfold TaskService.DuplicateTask
  rcases s.repo.Duplicate id newID now1 now2 with ⟨_ | _, _⟩ <;> rfl

/-- A call that fails leaves the service as it was. -/
theorem step_none (Letter : Char → Bool) (loc : Location) (s : TaskService) (c : Call)
    (h : (s.step Letter loc c).1 = none) : (s.step Letter loc c).2 = s := by
  cases c with
  | createTask req nowV newID now1 now2 =>
    cases hv : ValidateTask Letter loc nowV req.toTask with
    | some err =>
      simp only [TaskService.step, CreateTask_of_invalid Letter loc s req nowV newID now1 now2 err hv]
    | none =>
      simp [TaskService.step, CreateTask_of_valid Letter loc s req nowV newID now1 now2 hv] at h
  | duplicateTask id newID now1 now2 =>
    cases hl : s.repo.tasks.lookup id with
    | none =>
      simp only [TaskService.step, DuplicateTask_eq, InMemoryTaskRepository.Duplicate, hl]
    | some original =>
      simp [TaskService.step, DuplicateTask_eq, InMemoryTaskRepository.Duplicate, hl] at h

/-- A call that succeeds returns the generated identifier and writes one
record under it. -/
theorem step_some (Letter : Char → Bool) (loc : Location) (s : TaskService) (c : Call) (i : UUID)
    (h : (s.step Letter loc c).1 = some i) :
    i = c.newID ∧ ∃ rec, (s.step Letter loc c).2.repo.tasks = s.repo.tasks.insert i rec := by
  cases c with
  | createTask req nowV newID now1 now2 =>
    cases hv : ValidateTask Letter loc nowV req.toTask with
    | some err =>
      simp [TaskService.step, CreateTask_of_invalid Letter loc s req nowV newID now1 now2 err hv] at h
    | none =>
      simp only [TaskService.step, CreateTask_of_valid Letter loc s req nowV newID now1 now2 hv,
        Option.some.injEq] at h ⊢
      subst h
      exact ⟨rfl, _, rfl⟩
  | duplicateTask id newID now1 now2 =>
    cases hl : s.repo.tasks.lookup id with
    | none =>
      simp [TaskService.step, DuplicateTask_eq, InMemoryTaskRepository.Duplicate, hl] at h
    | some original =>
      simp only [TaskService.step, DuplicateTask_eq, InMemoryTaskRepository.Duplicate, hl,
        Option.some.injEq] at h ⊢
      subst h
      exact ⟨rfl, _, rfl⟩

theorem run_cons (Letter : Char → Bool)
    (loc : Location) (s : TaskService) (c : Call) (cs : List Call) :
    s.run Letter loc (c :: cs) =
      ((s.step Letter loc c).1.toList ++ ((s.step Letter loc c).2.run Letter loc cs).1,
        ((s.step Letter loc c).2.run Letter loc cs).2) :=
  rfl

/-- C8, refuted as stated. Two `CreateTask` calls on an empty repository both
succeed while `uuid.New()` returns the same value in both: the second returned
identifier equals the first, the record of the first call is overwritten by
that of the second, and one task is stored after two creations. -/
theorem run_repeated_identifier :
    ((NewTaskService NewInMemoryTaskRepository).run noLetters utcLoc repeatedIDCalls).1
      = [sampleID1, sampleID1] ∧
    ((NewTaskService NewInMemoryTaskRepository).run noLetters utcLoc repeatedIDCalls).2.repo.size = 1 ∧
    (((NewTaskService NewInMemoryTaskRepository).run noLetters utcLoc repeatedIDCalls).2.repo.tasks.lookup
      sampleID1).map (fun t => t.Title) = some "Write tests" := by
  decide

/-- C8, amended. For every sequence of `CreateTask` and `DuplicateTask` calls
in which each successful call drew an identifier that was not in the
repository at the time, the identifiers returned are pairwise different, none
of them was in the repository before the sequence and all are in it
afterwards, every record stored before the sequence is still stored unchanged
under its identifier, and the number of stored tasks has grown by the number
of successful calls. -/
theorem run_fresh_identifiers (Letter : Char → Bool)
    (loc : Location) (s : TaskService) (calls : List Call)
    (h : FreshIDs Letter loc s calls) :
    (s.run Letter loc calls).1.Nodup ∧
    (∀ i ∈ (s.run Letter loc calls).1,
      i ∉ s.repo.tasks ∧ i ∈ (s.run Letter loc calls).2.repo.tasks) ∧
    (∀ k t, s.repo.tasks.lookup k = some t →
      (s.run Letter loc calls).2.repo.tasks.lookup k = some t) ∧
    (s.run Letter loc calls).2.repo.size = s.repo.size + (s.run Letter loc calls).1.length := by
  induction calls generalizing s with
  | nil => exact ⟨List.nodup_nil, fun i hi => absurd hi (List.not_mem_nil i), fun _ _ hk => hk, rfl⟩
  | cons c cs ih =>
    obtain ⟨hfresh, hrest⟩ := h
    obtain ⟨hnd, hids, hkeep, hsize⟩ := ih (s.step Letter loc c).2 hrest
    rw [run_cons]
    cases ho : (s.step Letter loc c).1 with
    | none =>
      have hs := step_none Letter loc s c ho
      rw [hs] at hnd hids hkeep hsize ⊢
      exact ⟨hnd, hids, hkeep, hsize⟩
    | some i =>
      obtain ⟨hi, rec, hins⟩ := step_some Letter loc s c i ho
      have hnew : i ∉ s.repo.tasks := hi ▸ hfresh (by rw [ho]; rfl)
      have hmem1 : i ∈ (s.step Letter loc c).2.repo.tasks := by
        rw [hins, AList.mem_insert]; exact Or.inl rfl
      have hlook1 : (s.step Letter loc c).2.repo.tasks.lookup i = some rec := by
        rw [hins]; exact AList.lookup_insert _
      have hsub : ∀ k, k ∈ s.repo.tasks → k ∈ (s.step Letter loc c).2.repo.tasks := by
        intro k hk
        rw [hins, AList.mem_insert]; exact Or.inr hk
      have hsize1 : (s.step Letter loc c).2.repo.size = s.repo.size + 1 := by
        show (s.step Letter loc c).2.repo.tasks.entries.length = _
        rw [hins, AList.insert_entries_of_neg hnew]; rfl
      refine ⟨?_, ?_, ?_, ?_⟩
      · show (i :: ((s.step Letter loc c).2.run Letter loc cs).1).Nodup
        exact List.nodup_cons.2 ⟨fun hmem => (hids i hmem).1 hmem1, hnd⟩
      · intro j hj
        rcases List.mem_cons.1 hj with rfl | hj
        · exact ⟨hnew, mem_of_lookup_eq_some (hkeep _ _ hlook1)⟩
        · exact ⟨fun hjs => (hids j hj).1 (hsub j hjs), (hids j hj).2⟩
      · intro k t hk
        apply hkeep
        have hne : k ≠ i := fun hki => hnew (hki ▸ mem_of_lookup_eq_some hk)
        rw [hins, AList.lookup_insert_ne hne, hk]
      · show _ = s.repo.size + (i :: ((s.step Letter loc c).2.run Letter loc cs).1).length
        rw [hsize, hsize1, List.length_cons]
        omega

theorem run_fresh_identifiers_witness :
    FreshIDs noLetters utcLoc (NewTaskService NewInMemoryTaskRepository) distinctIDCalls ∧
    ((NewTaskService NewInMemoryTaskRepository).run noLetters utcLoc distinctIDCalls).1
      = [sampleID1, sampleID2, sampleID3] ∧
    ((NewTaskService NewInMemoryTaskRepository).run noLetters utcLoc distinctIDCalls).1.Nodup ∧
    ((NewTaskService NewInMemoryTaskRepository).run noLetters utcLoc distinctIDCalls).2.repo.size
      = 0 + 3 := by
  have h : FreshIDs noLetters utcLoc (NewTaskService NewInMemoryTaskRepository) distinctIDCalls :=
    ⟨by decide, by decide, by decide, trivial⟩
  obtain ⟨hnd, -, -, hsize⟩ :=
    run_fresh_identifiers noLetters utcLoc (NewTaskService NewInMemoryTaskRepository) distinctIDCalls h
  exact ⟨h, by decide, hnd, hsize⟩

/-! ## Validation before the write -/

/-- C9, refuted as stated. The repository holds one record, under `sampleID1`;
`CreateTask` of a valid request during which `uuid.New()` returns `sampleID1`
succeeds, and afterwards the repository still holds one record: the new one
has replaced the old one instead of being added. -/
theorem CreateTask_replaces_on_repeated_identifier :
    sampleRepo.size = 1 ∧ sampleRepo.tasks.lookup sampleID1 = some sampleTask ∧
    ValidateTask noLetters utcLoc sampleNow otherRequest.toTask = none ∧
    ∃ created s1,
      (NewTaskService sampleRepo).CreateTask noLetters utcLoc otherRequest sampleNow sampleID1
        (sampleNow + 4) (sampleNow + 5) = (Except.ok created, s1) ∧
      s1.repo.size = 1 ∧ s1.repo.tasks.lookup sampleID1 = some created ∧
      created ≠ sampleTask :=
  ⟨by decide, by decide, by decide,
    { otherRequest.toTask with
      ID := sampleID1, CreatedAt := sampleNow + 4, UpdatedAt := sampleNow + 5 },
    _, by rfl, by decide, by decide, by decide⟩

/-- C9, amended. When the task of the request fails `ValidateTask`,
`CreateTask` returns that error and no task, and the service is as before.
When it passes, `CreateTask` succeeds with a record that carries the title,
description, category, due date, priority and status of the request and is
stored under its identifier; and when the generated identifier was not in the
repository, the repository holds this record and exactly the records it held
before, one more than before. -/
theorem CreateTask_validates_then_creates (Letter : Char → Bool) (loc : Location) (s : TaskService)
    (req : CreateTaskRequest) (nowV : Time) (newID : UUID) (now1 now2 : Time) :
    (∀ err, ValidateTask Letter loc nowV req.toTask = some err →
      s.CreateTask Letter loc req nowV newID now1 now2 = (Except.error err, s)) ∧
    (ValidateTask Letter loc nowV req.toTask = none →
      ∃ created s1, s.CreateTask Letter loc req nowV newID now1 now2 = (Except.ok created, s1) ∧
        created.Title = req.Title ∧ created.Description = req.Description ∧
        created.Category = req.Category ∧ created.DueDate = req.DueDate ∧
        created.Priority = req.Priority ∧ created.Status = req.Status ∧
        s1.repo.tasks.lookup created.ID = some created ∧
        (newID ∉ s.repo.tasks →
          s1.repo.tasks.entries = ⟨created.ID, created⟩ :: s.repo.tasks.entries ∧
          s1.repo.size = s.repo.size + 1)) := by
  refine ⟨fun err h => CreateTask_of_invalid Letter loc s req nowV newID now1 now2 err h, fun h => ?_⟩
  refine ⟨{ req.toTask with ID := newID, CreatedAt := now1, UpdatedAt := now2 }, _,
    CreateTask_of_valid Letter loc s req nowV newID now1 now2 h, rfl, rfl, rfl, rfl, rfl, rfl,
    AList.lookup_insert _, fun hnew => ?_⟩
  have hent := @AList.insert_entries_of_neg UUID (fun _ => Task) _ newID
    { req.toTask with ID := newID, CreatedAt := now1, UpdatedAt := now2 } s.repo.tasks hnew
  refine ⟨hent, ?_⟩
  show (s.repo.tasks.insert newID _).entries.length = s.repo.tasks.entries.length + 1
  rw [hent]; rfl

theorem CreateTask_validates_then_creates_witness :
    ValidateTask noLetters utcLoc sampleNow { sampleRequest with Title := "" }.toTask
      = some (.sentinel .ErrEmptyTitle) ∧
    (NewTaskService sampleRepo).CreateTask noLetters utcLoc { sampleRequest with Title := "" } sampleNow
      sampleID2 (sampleNow + 4) (sampleNow + 5)
      = (Except.error (.sentinel .ErrEmptyTitle), NewTaskService sampleRepo) ∧
    ValidateTask noLetters utcLoc sampleNow otherRequest.toTask = none ∧
    sampleID2 ∉ (NewTaskService sampleRepo).repo.tasks ∧
    ∃ created s1,
      (NewTaskService sampleRepo).CreateTask noLetters utcLoc otherRequest sampleNow sampleID2
        (sampleNow + 4) (sampleNow + 5) = (Except.ok created, s1) ∧
      created.Title = "Write tests" ∧ s1.repo.tasks.lookup created.ID = some created ∧
      s1.repo.size = 2 := by
  have h1 : ValidateTask noLetters utcLoc sampleNow { sampleRequest with Title := "" }.toTask
      = some (.sentinel .ErrEmptyTitle) := by decide
  have h2 : ValidateTask noLetters utcLoc sampleNow otherRequest.toTask = none := by decide
  have h3 : sampleID2 ∉ (NewTaskService sampleRepo).repo.tasks := by decide
  obtain ⟨created, s1, hrun, hT, -, -, -, -, -, hst, hgain⟩ :=
    (CreateTask_validates_then_creates noLetters utcLoc (NewTaskService sampleRepo) otherRequest
      sampleNow sampleID2 (sampleNow + 4) (sampleNow + 5)).2 h2
  exact ⟨h1,
    (CreateTask_validates_then_creates noLetters utcLoc (NewTaskService sampleRepo)
      { sampleRequest with Title := "" } sampleNow sampleID2 (sampleNow + 4) (sampleNow + 5)).1
      _ h1,
    h2, h3, created, s1, hrun, hT, hst, (hgain h3).2⟩

theorem validateTitle_ne_notFound (Letter : Char → Bool) (title : String) (err : GoError)
    (h : validateTitle Letter title = some err) : err ≠ errTaskNotFound := by
  unfold validateTitle at h
  split_ifs at h <;> cases h <;> decide

theorem validateDescription_ne_notFound (description : String) (err : GoError)
    (h : validateDescription description = some err) : err ≠ errTaskNotFound := by
  unfold validateDescription at h
  split_ifs at h
  cases h
  decide

theorem validateCategory_ne_notFound (Letter : Char → Bool) (category : String) (err : GoError)
    (h : validateCategory Letter category = some err) : err ≠ errTaskNotFound := by
  unfold validateCategory at h
  split_ifs at h <;> cases h <;> decide

theorem validatePriority_ne_notFound (priority : Priority) (err : GoError)
    (h : validatePriority priority = some err) : err ≠ errTaskNotFound := by
  simp only [validatePriority] at h
  split_ifs at h
  cases h
  simp [errTaskNotFound]

theorem validateStatus_ne_notFound (status : Status) (err : GoError)
    (h : validateStatus status = some err) : err ≠ errTaskNotFound := by
  simp only [validateStatus] at h
  split_ifs at h
  cases h
  simp [errTaskNotFound]

theorem validateDueDate_ne_notFound (loc : Location) (now dueDate : Time) (err : GoError)
    (h : validateDueDate loc now dueDate = some err) : err ≠ errTaskNotFound := by
  simp only [validateDueDate] at h
  split_ifs at h <;> cases h <;> decide

/-- No error of `ValidateTask` is the error `task not found` of the repository. -/
theorem ValidateTask_ne_notFound (Letter : Char → Bool) (loc : Location) (now : Time) (task : Task)
    (err : GoError) (h : ValidateTask Letter loc now task = some err) : err ≠ errTaskNotFound := by
  unfold ValidateTask at h
  cases h1 : validateTitle Letter task.Title with
  | some e => simp [h1] at h; exact h ▸ validateTitle_ne_notFound _ _ _ h1
  | none =>
  cases h2 : validateDescription task.Description with
  | some e => simp [h1, h2] at h; exact h ▸ validateDescription_ne_notFound _ _ h2
  | none =>
  cases h3 : validateCategory Letter task.Category with
  | some e => simp [h1, h2, h3] at h; exact h ▸ validateCategory_ne_notFound _ _ _ h3
  | none =>
  cases h4 : validatePriority task.Priority with
  | some e => simp [h1, h2, h3, h4] at h; exact h ▸ validatePriority_ne_notFound _ _ h4
  | none =>
  cases h5 : validateStatus task.Status with
  | some e => simp [h1, h2, h3, h4, h5] at h; exact h ▸ validateStatus_ne_notFound _ _ h5
  | none =>
  cases h6 : validateDueDate loc now task.DueDate with
  | some e => simp [h1, h2, h3, h4, h5, h6] at h; exact h ▸ validateDueDate_ne_notFound _ _ _ _ h6
  | none => simp [h1, h2, h3, h4, h5, h6] at h

theorem UpdateTask_invalid_eq (Letter : Char → Bool) (loc : Location) (s : TaskService) (t : Task)
    (nowV now : Time) (err : GoError) (h : ValidateTask Letter loc nowV t = some err) :
    s.UpdateTask Letter loc t nowV now = (some err, s) := by
  simp only [TaskService.UpdateTask, h]

/-- C10. For every service and every task that fails `ValidateTask`,
`UpdateTask` returns the validation error and the service, with its
repository, is as before, whether the identifier of the task is stored or
not; the error returned is not the error `task not found`, also when the
identifier is unknown. -/
theorem UpdateTask_invalid (Letter : Char → Bool) (loc : Location) (s : TaskService) (t : Task)
    (nowV now : Time) (err : GoError) (h : ValidateTask Letter loc nowV t = some err) :
    s.UpdateTask Letter loc t nowV now = (some err, s) ∧ err ≠ errTaskNotFound ∧
      (t.ID ∉ s.repo.tasks → (s.UpdateTask Letter loc t nowV now).1 ≠ some errTaskNotFound) := by
  have hrun : s.UpdateTask Letter loc t nowV now = (some err, s) := by
    simp only [TaskService.UpdateTask, h]
  have hne := ValidateTask_ne_notFound Letter loc nowV t err h
  refine ⟨hrun, hne, fun _ => ?_⟩
  rw [hrun]
  exact fun heq => hne (Option.some.inj heq)

theorem UpdateTask_invalid_witness :
    ValidateTask noLetters utcLoc sampleNow { sampleTask with ID := sampleID2, Title := "" }
      = some (.sentinel .ErrEmptyTitle) ∧
    sampleID2 ∉ (NewTaskService sampleRepo).repo.tasks ∧
    (NewTaskService sampleRepo).UpdateTask noLetters utcLoc
      { sampleTask with ID := sampleID2, Title := "" } sampleNow (sampleNow + 9)
      = (some (.sentinel .ErrEmptyTitle), NewTaskService sampleRepo) := by
  have h : ValidateTask noLetters utcLoc sampleNow { sampleTask with ID := sampleID2, Title := "" }
      = some (.sentinel .ErrEmptyTitle) := by decide
  exact ⟨h, by decide,
    (UpdateTask_invalid noLetters utcLoc (NewTaskService sampleRepo)
      { sampleTask with ID := sampleID2, Title := "" } sampleNow (sampleNow + 9) _ h).1⟩

/-! ## The order of the rules -/

/-- `ValidateTask`, one rule group after the other. -/
theorem ValidateTask_eq (Letter : Char → Bool) (loc : Location) (now : Time) (task : Task) :
    ValidateTask Letter loc now task =
      (validateTitle Letter task.Title).orElse fun _ =>
      (validateDescription task.Description).orElse fun _ =>
      (validateCategory Letter task.Category).orElse fun _ =>
      (validatePriority task.Priority).orElse fun _ =>
      (validateStatus task.Status).orElse fun _ =>
      validateDueDate loc now task.DueDate := by
  unfold ValidateTask
  cases validateTitle Letter task.Title <;>
  cases validateDescription task.Description <;>
  cases validateCategory Letter task.Category <;>
  cases validatePriority task.Priority <;>
  cases validateStatus task.Status <;>
  cases validateDueDate loc now task.DueDate <;> rfl

/-- C11. For every task, `ValidateTask` returns the error of the first rule
group, in the order title, description, category, priority, status, due date,
that fails, whatever the fields of the later groups hold, and no error when
none fails. So a task with an empty title yields `ErrEmptyTitle`, and a task
with an accepted title and a description of more than 500 bytes yields
`ErrDescriptionTooLong`, for every value of the other fields. -/
theorem ValidateTask_first_failure (Letter : Char → Bool)
    (loc : Location) (now : Time) (task : Task) :
    (∀ e, validateTitle Letter task.Title = some e → ValidateTask Letter loc now task = some e) ∧
    (validateTitle Letter task.Title = none →
      (∀ e, validateDescription task.Description = some e →
        ValidateTask Letter loc now task = some e) ∧
      (validateDescription task.Description = none →
        (∀ e, validateCategory Letter task.Category = some e →
          ValidateTask Letter loc now task = some e) ∧
        (validateCategory Letter task.Category = none →
          (∀ e, validatePriority task.Priority = some e →
            ValidateTask Letter loc now task = some e) ∧
          (validatePriority task.Priority = none →
            (∀ e, validateStatus task.Status = some e →
              ValidateTask Letter loc now task = some e) ∧
            (validateStatus task.Status = none →
              ValidateTask Letter loc now task = validateDueDate loc now task.DueDate))))) ∧
    (task.Title = "" → ValidateTask Letter loc now task = some (.sentinel .ErrEmptyTitle)) ∧
    (validateTitle Letter task.Title = none → len task.Description > 500 →
      ValidateTask Letter loc now task = some (.sentinel .ErrDescriptionTooLong)) := by
  rw [ValidateTask_eq]
  refine ⟨fun e h => by rw [h]; rfl, fun h1 => ⟨fun e h => by rw [h1, h]; rfl, fun h2 =>
    ⟨fun e h => by rw [h1, h2, h]; rfl, fun h3 => ⟨fun e h => by rw [h1, h2, h3, h]; rfl,
    fun h4 => ⟨fun e h => by rw [h1, h2, h3, h4, h]; rfl, fun h5 => by
      rw [h1, h2, h3, h4, h5]; rfl⟩⟩⟩⟩, fun h => ?_, fun h1 hd => ?_⟩
  · have : validateTitle Letter task.Title = some (.sentinel .ErrEmptyTitle) := by
      rw [h]; rfl
    rw [this]; rfl
  · have : validateDescription task.Description = some (.sentinel .ErrDescriptionTooLong) := by
      unfold validateDescription; rw [if_pos hd]
    rw [h1, this]; rfl

theorem ValidateTask_first_failure_witness :
    emptyTitleTask.Title = "" ∧
    validateDueDate utcLoc sampleNow emptyTitleTask.DueDate = some (.sentinel .ErrDueDateInPast) ∧
    ValidateTask noLetters utcLoc sampleNow emptyTitleTask = some (.sentinel .ErrEmptyTitle) ∧
    validateTitle noLetters onlyTitleValidTask.Title = none ∧
    len onlyTitleValidTask.Description > 500 ∧
    validateCategory noLetters onlyTitleValidTask.Category ≠ none ∧
    validatePriority onlyTitleValidTask.Priority ≠ none ∧
    validateStatus onlyTitleValidTask.Status ≠ none ∧
    validateDueDate utcLoc sampleNow onlyTitleValidTask.DueDate ≠ none ∧
    ValidateTask noLetters utcLoc sampleNow onlyTitleValidTask
      = some (.sentinel .ErrDescriptionTooLong) := by
  have h1 : validateTitle noLetters onlyTitleValidTask.Title = none := by decide
  have h2 : len onlyTitleValidTask.Description > 500 := by
    set_option maxRecDepth 8000 in decide
  exact ⟨rfl, by decide,
    (ValidateTask_first_failure noLetters utcLoc sampleNow emptyTitleTask).2.2.1 rfl,
    h1, h2, by decide, by decide, by decide, by decide,
    (ValidateTask_first_failure noLetters utcLoc sampleNow onlyTitleValidTask).2.2.2 h1 h2⟩

/-! ## The title limit -/

theorem length_le_utf8Len (cs : List Char) : cs.length ≤ String.utf8Len cs := by
  induction cs with
  | nil => exact Nat.le_refl 0
  | cons c cs ih =>
    rw [String.utf8Len_cons, List.length_cons]
    have := Char.utf8Size_pos c
    omega

/-- A string has at least as many bytes as characters. -/
theorem length_le_len (s : String) : s.length ≤ len s := by
  cases s with
  | mk cs => exact length_le_utf8Len cs

/-- A title of more than 100 characters is rejected as too long. -/
theorem ValidateTask_of_length_gt (Letter : Char → Bool) (loc : Location) (now : Time) (task : Task)
    (h : task.Title.length > 100) :
    ValidateTask Letter loc now task = some (.sentinel .ErrTitleTooLong) := by
  have hlen := length_le_len task.Title
  have hne : task.Title ≠ "" := by
    intro h0
    rw [h0] at h
    exact absurd h (by decide)
  have ht : validateTitle Letter task.Title = some (.sentinel .ErrTitleTooLong) := by
    unfold validateTitle
    rw [if_neg hne, if_pos (by omega)]
  rw [ValidateTask_eq, ht]; rfl

/-- C12, at the failing input. The title of `cyrillicTitleTask` is not empty
and has 82 characters, which is at most 100; it has 154 bytes, and
`ValidateTask` returns `ErrTitleTooLong`. -/
theorem ValidateTask_title_limit_in_bytes :
    ∀ Letter : Char → Bool,
      cyrillicTitleTask.Title ≠ "" ∧ cyrillicTitleTask.Title.length = 82 ∧
      len cyrillicTitleTask.Title = 154 ∧
      ValidateTask Letter utcLoc sampleNow cyrillicTitleTask = some (.sentinel .ErrTitleTooLong) := by
  intro Letter
  exact ⟨by decide, by decide, by decide, rfl⟩

/-! ## The due date -/

theorem daysFromCivil_add_five (y m d : Int) :
    daysFromCivil y m d + 1825 ≤ daysFromCivil (y + 5) m d := by
  unfold daysFromCivil
  simp only
  split_ifs <;> omega

theorem daysFromCivil_five_lt_six (y m d : Int) :
    daysFromCivil (y + 5) m d + 365 ≤ daysFromCivil (y + 6) m d := by
  unfold daysFromCivil
  simp only
  split_ifs <;> omega

/-- The date computed for a day is at most 400 days before the day. -/
theorem le_daysFromCivil_civilFromDays (z : Int) :
    z ≤ daysFromCivil (civilFromDays z).1 (civilFromDays z).2.1 (civilFromDays z).2.2 + 400 := by
  unfold daysFromCivil civilFromDays
  simp only
  split_ifs <;> omega

/-- The offset `time.Date` picks is that of some zone of the location. -/
theorem dateOffset_bounds (loc : Location) (unix : Int) :
    -(8 * 86400) ≤ dateOffset loc unix ∧ dateOffset loc unix ≤ 8 * 86400 := by
  unfold dateOffset
  simp only
  split_ifs
  · exact ⟨loc.le_offset _, loc.offset_le _⟩
  · exact ⟨loc.le_offset _, loc.offset_le _⟩
  · exact ⟨by decide, by decide⟩

/-- Five years later is not earlier, in every location. -/
theorem le_AddDate_five (loc : Location) (t : Int) : t ≤ AddDate loc t 5 := by
  have h1 := le_daysFromCivil_civilFromDays
    (wallSeconds loc (t / 1000000000) / 86400 + 306)
  have h2 := daysFromCivil_add_five
    (civilFromDays (wallSeconds loc (t / 1000000000) / 86400 + 306)).1
    (civilFromDays (wallSeconds loc (t / 1000000000) / 86400 + 306)).2.1
    (civilFromDays (wallSeconds loc (t / 1000000000) / 86400 + 306)).2.2
  have h3 := dateOffset_bounds loc
    ((daysFromCivil ((civilFromDays (wallSeconds loc (t / 1000000000) / 86400 + 306)).1 + 5)
      (civilFromDays (wallSeconds loc (t / 1000000000) / 86400 + 306)).2.1
      (civilFromDays (wallSeconds loc (t / 1000000000) / 86400 + 306)).2.2 - 306) * 86400
        + wallSeconds loc (t / 1000000000) % 86400)
  have h4 : t / 1000000000 - 8 * 86400 ≤ wallSeconds loc (t / 1000000000) := by
    have := loc.le_offset (t / 1000000000)
    unfold wallSeconds
    omega
  show t ≤
    ((daysFromCivil ((civilFromDays (wallSeconds loc (t / 1000000000) / 86400 + 306)).1 + 5)
      (civilFromDays (wallSeconds loc (t / 1000000000) / 86400 + 306)).2.1
      (civilFromDays (wallSeconds loc (t / 1000000000) / 86400 + 306)).2.2 - 306) * 86400
        + wallSeconds loc (t / 1000000000) % 86400
      - dateOffset loc
        ((daysFromCivil ((civilFromDays (wallSeconds loc (t / 1000000000) / 86400 + 306)).1 + 5)
          (civilFromDays (wallSeconds loc (t / 1000000000) / 86400 + 306)).2.1
          (civilFromDays (wallSeconds loc (t / 1000000000) / 86400 + 306)).2.2 - 306) * 86400
            + wallSeconds loc (t / 1000000000) % 86400)) * 1000000000 + t % 1000000000
  omega

/-- Six years later is later than five years later, in every location. -/
theorem AddDate_five_lt_six (loc : Location) (t : Int) : AddDate loc t 5 < AddDate loc t 6 := by
  have h2 := daysFromCivil_five_lt_six
    (civilFromDays (wallSeconds loc (t / 1000000000) / 86400 + 306)).1
    (civilFromDays (wallSeconds loc (t / 1000000000) / 86400 + 306)).2.1
    (civilFromDays (wallSeconds loc (t / 1000000000) / 86400 + 306)).2.2
  have h3 := dateOffset_bounds loc
    ((daysFromCivil ((civilFromDays (wallSeconds loc (t / 1000000000) / 86400 + 306)).1 + 5)
      (civilFromDays (wallSeconds loc (t / 1000000000) / 86400 + 306)).2.1
      (civilFromDays (wallSeconds loc (t / 1000000000) / 86400 + 306)).2.2 - 306) * 86400
        + wallSeconds loc (t / 1000000000) % 86400)
  have h4 := dateOffset_bounds loc
    ((daysFromCivil ((civilFromDays (wallSeconds loc (t / 1000000000) / 86400 + 306)).1 + 6)
      (civilFromDays (wallSeconds loc (t / 1000000000) / 86400 + 306)).2.1
      (civilFromDays (wallSeconds loc (t / 1000000000) / 86400 + 306)).2.2 - 306) * 86400
        + wallSeconds loc (t / 1000000000) % 86400)
  show
    ((daysFromCivil ((civilFromDays (wallSeconds loc (t / 1000000000) / 86400 + 306)).1 + 5)
      (civilFromDays (wallSeconds loc (t / 1000000000) / 86400 + 306)).2.1
      (civilFromDays (wallSeconds loc (t / 1000000000) / 86400 + 306)).2.2 - 306) * 86400
        + wallSeconds loc (t / 1000000000) % 86400
      - dateOffset loc
        ((daysFromCivil ((civilFromDays (wallSeconds loc (t / 1000000000) / 86400 + 306)).1 + 5)
          (civilFromDays (wallSeconds loc (t / 1000000000) / 86400 + 306)).2.1
          (civilFromDays (wallSeconds loc (t / 1000000000) / 86400 + 306)).2.2 - 306) * 86400
            + wallSeconds loc (t / 1000000000) % 86400)) * 1000000000 + t % 1000000000
    < ((daysFromCivil ((civilFromDays (wallSeconds loc (t / 1000000000) / 86400 + 306)).1 + 6)
      (civilFromDays (wallSeconds loc (t / 1000000000) / 86400 + 306)).2.1
      (civilFromDays (wallSeconds loc (t / 1000000000) / 86400 + 306)).2.2 - 306) * 86400
        + wallSeconds loc (t / 1000000000) % 86400
      - dateOffset loc
        ((daysFromCivil ((civilFromDays (wallSeconds loc (t / 1000000000) / 86400 + 306)).1 + 6)
          (civilFromDays (wallSeconds loc (t / 1000000000) / 86400 + 306)).2.1
          (civilFromDays (wallSeconds loc (t / 1000000000) / 86400 + 306)).2.2 - 306) * 86400
            + wallSeconds loc (t / 1000000000) % 86400)) * 1000000000 + t % 1000000000
  omega

/-- The three outcomes of `validateDueDate`. -/
theorem validateDueDate_eq (loc : Location) (now dueDate : Time) :
    validateDueDate loc now dueDate =
      if dueDate < now then some (.sentinel .ErrDueDateInPast)
      else if AddDate loc now 5 < dueDate then
        some (.fresh "due date cannot be more than 5 years in the future")
      else none :=
  rfl

/-- When the five earlier rule groups pass, the due date decides. -/
theorem ValidateTask_of_earlier_pass (Letter : Char → Bool)
    (loc : Location) (now : Time) (task : Task)
    (h1 : validateTitle Letter task.Title = none)
    (h2 : validateDescription task.Description = none)
    (h3 : validateCategory Letter task.Category = none)
    (h4 : validatePriority task.Priority = none)
    (h5 : validateStatus task.Status = none) :
    ValidateTask Letter loc now task = validateDueDate loc now task.DueDate := by
  rw [ValidateTask_eq, h1, h2, h3, h4, h5]; rfl

/-- C13, refuted as stated. A task that passes the five earlier rule groups
and whose due date is the instant of validation itself is accepted:
`ValidateTask` returns no error, not `ErrDueDateInPast`. -/
theorem ValidateTask_accepts_due_now :
    validateTitle noLetters sampleTask.Title = none ∧
    validateDescription sampleTask.Description = none ∧
    validateCategory noLetters sampleTask.Category = none ∧
    validatePriority sampleTask.Priority = none ∧
    validateStatus sampleTask.Status = none ∧
    ({ sampleTask with DueDate := sampleNow } : Task).DueDate ≤ sampleNow ∧
    ValidateTask noLetters utcLoc sampleNow { sampleTask with DueDate := sampleNow } = none := by
  decide

/-- C13, amended. For every task that passes the title, description,
category, priority and status rules: when its due date is before the instant
of validation, `ValidateTask` returns `ErrDueDateInPast`; when its due date is
that instant, `ValidateTask` returns no error. -/
theorem ValidateTask_due_date_past (Letter : Char → Bool)
    (loc : Location) (now : Time) (task : Task)
    (h1 : validateTitle Letter task.Title = none)
    (h2 : validateDescription task.Description = none)
    (h3 : validateCategory Letter task.Category = none)
    (h4 : validatePriority task.Priority = none)
    (h5 : validateStatus task.Status = none) :
    (task.DueDate < now → ValidateTask Letter loc now task = some (.sentinel .ErrDueDateInPast)) ∧
    (task.DueDate = now → ValidateTask Letter loc now task = none) := by
  rw [ValidateTask_of_earlier_pass Letter loc now task h1 h2 h3 h4 h5, validateDueDate_eq]
  constructor
  · intro h
    rw [if_pos h]
  · intro h
    rw [h, if_neg (lt_irrefl now), if_neg (not_lt.2 (le_AddDate_five loc now))]

theorem ValidateTask_due_date_past_witness :
    validateTitle noLetters sampleTask.Title = none ∧
    validateDescription sampleTask.Description = none ∧
    validateCategory noLetters sampleTask.Category = none ∧
    validatePriority sampleTask.Priority = none ∧
    validateStatus sampleTask.Status = none ∧
    ({ sampleTask with DueDate := sampleNow - 1 } : Task).DueDate < sampleNow ∧
    ValidateTask noLetters utcLoc sampleNow { sampleTask with DueDate := sampleNow - 1 }
      = some (.sentinel .ErrDueDateInPast) := by
  have h1 : validateTitle noLetters sampleTask.Title = none := by decide
  have h2 : validateDescription sampleTask.Description = none := by decide
  have h3 : validateCategory noLetters sampleTask.Category = none := by decide
  have h4 : validatePriority sampleTask.Priority = none := by decide
  have h5 : validateStatus sampleTask.Status = none := by decide
  have h6 : ({ sampleTask with DueDate := sampleNow - 1 } : Task).DueDate < sampleNow := by
    decide
  exact ⟨h1, h2, h3, h4, h5, h6,
    (ValidateTask_due_date_past noLetters utcLoc sampleNow { sampleTask with DueDate := sampleNow - 1 }
      h1 h2 h3 h4 h5).1 h6⟩

/-- C14. For every task that passes the title, description, category,
priority and status rules: when its due date is after the instant of
validation, `ValidateTask` returns the error `due date cannot be more than 5
years in the future` exactly when the due date is after that instant plus five
calendar years, counted by `AddDate` in the location of the host, and returns
no error otherwise; a due date exactly five years after the instant is
accepted, and one six years after it is rejected with that error. This holds
in every location. -/
theorem ValidateTask_due_date_five_years (Letter : Char → Bool)
    (loc : Location) (now : Time) (task : Task)
    (h1 : validateTitle Letter task.Title = none)
    (h2 : validateDescription task.Description = none)
    (h3 : validateCategory Letter task.Category = none)
    (h4 : validatePriority task.Priority = none)
    (h5 : validateStatus task.Status = none) :
    (now < task.DueDate →
      (ValidateTask Letter loc now task
          = some (.fresh "due date cannot be more than 5 years in the future") ↔
        AddDate loc now 5 < task.DueDate) ∧
      (¬ AddDate loc now 5 < task.DueDate → ValidateTask Letter loc now task = none)) ∧
    (task.DueDate = AddDate loc now 5 → ValidateTask Letter loc now task = none) ∧
    (task.DueDate = AddDate loc now 6 →
      ValidateTask Letter loc now task
        = some (.fresh "due date cannot be more than 5 years in the future")) := by
  rw [ValidateTask_of_earlier_pass Letter loc now task h1 h2 h3 h4 h5, validateDueDate_eq]
  refine ⟨fun h => ?_, fun h => ?_, fun h => ?_⟩
  · rw [if_neg (not_lt.2 (le_of_lt h))]
    constructor
    · constructor
      · intro he
        by_contra hn
        rw [if_neg hn] at he
        cases he
      · intro hlt
        rw [if_pos hlt]
    · intro hn
      rw [if_neg hn]
  · rw [h, if_neg (not_lt.2 (le_AddDate_five loc now)), if_neg (lt_irrefl _)]
  · have h6 : AddDate loc now 5 < AddDate loc now 6 := AddDate_five_lt_six loc now
    have h5 : now ≤ AddDate loc now 5 := le_AddDate_five loc now
    rw [h, if_neg (not_lt.2 (le_trans h5 (le_of_lt h6))), if_pos h6]

theorem ValidateTask_due_date_five_years_witness :
    validateTitle noLetters sampleTask.Title = none ∧
    validateDescription sampleTask.Description = none ∧
    validateCategory noLetters sampleTask.Category = none ∧
    validatePriority sampleTask.Priority = none ∧
    validateStatus sampleTask.Status = none ∧
    sampleNow < sampleTask.DueDate ∧ ¬ AddDate utcLoc sampleNow 5 < sampleTask.DueDate ∧
    ValidateTask noLetters utcLoc sampleNow sampleTask = none ∧
    ValidateTask noLetters utcLoc sampleNow
      { sampleTask with DueDate := AddDate utcLoc sampleNow 5 } = none ∧
    ValidateTask noLetters utcLoc sampleNow { sampleTask with DueDate := AddDate utcLoc sampleNow 6 }
      = some (.fresh "due date cannot be more than 5 years in the future") ∧
    leapDayEvening < marchFirst2029 ∧
    ¬ AddDate utcLoc leapDayEvening 5 < marchFirst2029 ∧
    AddDate plusTenLoc leapDayEvening 5 < marchFirst2029 ∧
    ValidateTask noLetters utcLoc leapDayEvening { sampleTask with DueDate := marchFirst2029 }
      = none ∧
    ValidateTask noLetters plusTenLoc leapDayEvening { sampleTask with DueDate := marchFirst2029 }
      = some (.fresh "due date cannot be more than 5 years in the future") := by
  have h1 : validateTitle noLetters sampleTask.Title = none := by decide
  have h2 : validateDescription sampleTask.Description = none := by decide
  have h3 : validateCategory noLetters sampleTask.Category = none := by decide
  have h4 : validatePriority sampleTask.Priority = none := by decide
  have h5 : validateStatus sampleTask.Status = none := by decide
  have h6 : sampleNow < sampleTask.DueDate := by decide
  have h7 : ¬ AddDate utcLoc sampleNow 5 < sampleTask.DueDate := by decide
  have h8 : leapDayEvening < marchFirst2029 := by decide
  have h9 : ¬ AddDate utcLoc leapDayEvening 5 < marchFirst2029 := by decide
  have h10 : AddDate plusTenLoc leapDayEvening 5 < marchFirst2029 := by decide
  refine ⟨h1, h2, h3, h4, h5, h6, h7, ?_, ?_, ?_, h8, h9, h10,
    ((ValidateTask_due_date_five_years noLetters utcLoc leapDayEvening
      { sampleTask with DueDate := marchFirst2029 } h1 h2 h3 h4 h5).1 h8).2 h9,
    ((ValidateTask_due_date_five_years noLetters plusTenLoc leapDayEvening
      { sampleTask with DueDate := marchFirst2029 } h1 h2 h3 h4 h5).1 h8).1.2 h10⟩
  · exact ((ValidateTask_due_date_five_years noLetters utcLoc sampleNow sampleTask
      h1 h2 h3 h4 h5).1 h6).2 h7
  · exact (ValidateTask_due_date_five_years noLetters utcLoc sampleNow
      { sampleTask with DueDate := AddDate utcLoc sampleNow 5 } h1 h2 h3 h4 h5).2.1 rfl
  · exact (ValidateTask_due_date_five_years noLetters utcLoc sampleNow
      { sampleTask with DueDate := AddDate utcLoc sampleNow 6 } h1 h2 h3 h4 h5).2.2 rfl

/-! ## What each rule group returns -/

theorem validateTitle_eq_some (Letter : Char → Bool) (title : String) (e : GoError)
    (h : validateTitle Letter title = some e) :
    e = .sentinel .ErrEmptyTitle ∨ e = .sentinel .ErrTitleTooLong ∨
      e = .fresh "title must contain meaningful characters" := by
  unfold validateTitle at h
  split_ifs at h <;> cases h <;> simp

theorem validateDescription_eq_some (description : String) (e : GoError)
    (h : validateDescription description = some e) : e = .sentinel .ErrDescriptionTooLong := by
  unfold validateDescription at h
  split_ifs at h
  cases h
  rfl

theorem validateCategory_eq_some_iff (Letter : Char → Bool) (category : String) (e : GoError) :
    validateCategory Letter category = some e ↔
      e = .sentinel .ErrInvalidCategory ∧ category ≠ "" ∧
        (len category > 50 ∨
          ∃ c ∈ category.data, IsLetter Letter c = false ∧ IsSpace c = false ∧ c ≠ '-') := by
  have hany : category.data.any
      (fun char => !IsLetter Letter char && !IsSpace char && char != '-') = true ↔
      ∃ c ∈ category.data, IsLetter Letter c = false ∧ IsSpace c = false ∧ c ≠ '-' := by
    simp [List.any_eq_true, and_assoc]
  unfold validateCategory
  by_cases h0 : category = ""
  · simp [h0]
  · by_cases h1 : len category > 50
    · simp only [h0, h1, ne_eq, not_false_eq_true, if_true, true_or, and_true,
        Option.some.injEq]
      exact eq_comm
    · rw [if_pos h0, if_neg h1]
      by_cases h2 : category.data.any
          (fun char => !IsLetter Letter char && !IsSpace char && char != '-') = true
      · rw [if_pos h2]
        simp only [Option.some.injEq, ne_eq, h0, not_false_eq_true, true_and]
        exact ⟨fun h => ⟨h.symm, Or.inr (hany.1 h2)⟩, fun h => h.1.symm⟩
      · rw [if_neg h2]
        constructor
        · intro h
          cases h
        · rintro ⟨_, _, h | h⟩
          · exact absurd h h1
          · exact absurd (hany.2 h) h2

theorem validatePriority_eq_some_iff (priority : Priority) (e : GoError) :
    validatePriority priority = some e ↔
      e = .wrap .ErrInvalidPriority priority ∧
        priority ≠ "LOW" ∧ priority ≠ "MEDIUM" ∧ priority ≠ "HIGH" := by
  simp only [validatePriority, PriorityLow, PriorityMedium, PriorityHigh]
  by_cases h : priority = "LOW" ∨ priority = "MEDIUM" ∨ priority = "HIGH"
  · rcases h with h | h | h <;> subst h <;> simp
  · have hc : ["LOW", "MEDIUM", "HIGH"].contains priority = false := by
      simpa [List.contains_eq_any_beq] using h
    push_neg at h
    simp only [hc, Bool.not_false, if_true, Option.some.injEq]
    exact ⟨fun he => ⟨he.symm, h⟩, fun he => he.1.symm⟩

theorem validateStatus_eq_some_iff (status : Status) (e : GoError) :
    validateStatus status = some e ↔
      e = .wrap .ErrInvalidStatus status ∧
        status ≠ "TODO" ∧ status ≠ "IN_PROGRESS" ∧ status ≠ "DONE" ∧ status ≠ "BLOCKED" := by
  simp only [validateStatus, StatusToDo, StatusInProgress, StatusDone, StatusBlocked]
  by_cases h : status = "TODO" ∨ status = "IN_PROGRESS" ∨ status = "DONE" ∨ status = "BLOCKED"
  · rcases h with h | h | h | h <;> subst h <;> simp
  · have hc : ["TODO", "IN_PROGRESS", "DONE", "BLOCKED"].contains status = false := by
      simpa [List.contains_eq_any_beq] using h
    push_neg at h
    simp only [hc, Bool.not_false, if_true, Option.some.injEq]
    exact ⟨fun he => ⟨he.symm, h⟩, fun he => he.1.symm⟩

theorem validateDueDate_eq_some (loc : Location) (now dueDate : Time) (e : GoError)
    (h : validateDueDate loc now dueDate = some e) :
    e = .sentinel .ErrDueDateInPast ∨
      e = .fresh "due date cannot be more than 5 years in the future" := by
  rw [validateDueDate_eq] at h
  split_ifs at h <;> cases h <;> simp

/-! ## The category and priority rules -/

/-- C15, refuted as stated. The title and the description of
`cyrillicCategoryTask` are accepted; its category is not empty, has 38
characters, which is not more than 50, and holds only letters and spaces; it
has 73 bytes, and `ValidateTask` returns `ErrInvalidCategory`. -/
theorem ValidateTask_category_limit_in_bytes :
    validateTitle russianLetters cyrillicCategoryTask.Title = none ∧
    validateDescription cyrillicCategoryTask.Description = none ∧
    cyrillicCategoryTask.Category ≠ "" ∧
    cyrillicCategoryTask.Category.length = 38 ∧
    (∀ c ∈ cyrillicCategoryTask.Category.data,
      IsLetter russianLetters c = true ∨ IsSpace c = true ∨ c = '-') ∧
    len cyrillicCategoryTask.Category = 73 ∧
    ValidateTask russianLetters utcLoc sampleNow cyrillicCategoryTask
      = some (.sentinel .ErrInvalidCategory) := by
  decide

/-- C15, amended. For every task whose title and description are accepted,
`ValidateTask` returns `ErrInvalidCategory` exactly when the category is not
empty and either has more than 50 bytes (`len` of the string) or contains a
character that is neither a letter nor white space nor a hyphen; and the empty
category passes the category rule. -/
theorem ValidateTask_category_rule (Letter : Char → Bool)
    (loc : Location) (now : Time) (task : Task)
    (h1 : validateTitle Letter task.Title = none)
    (h2 : validateDescription task.Description = none) :
    (ValidateTask Letter loc now task = some (.sentinel .ErrInvalidCategory) ↔
      task.Category ≠ "" ∧
        (len task.Category > 50 ∨
          ∃ c ∈ task.Category.data, IsLetter Letter c = false ∧ IsSpace c = false ∧ c ≠ '-')) ∧
    validateCategory Letter "" = none ∧
    (task.Category = "" → ValidateTask Letter loc now task ≠ some (.sentinel .ErrInvalidCategory)) := by
  have hiff : ValidateTask Letter loc now task = some (.sentinel .ErrInvalidCategory) ↔
      task.Category ≠ "" ∧
        (len task.Category > 50 ∨
          ∃ c ∈ task.Category.data,
            IsLetter Letter c = false ∧ IsSpace c = false ∧ c ≠ '-') := by
    rw [ValidateTask_eq, h1, h2]
    cases hc : validateCategory Letter task.Category with
    | some e =>
      have he := (validateCategory_eq_some_iff Letter task.Category e).1 hc
      rw [he.1]
      exact ⟨fun _ => he.2, fun _ => rfl⟩
    | none =>
      constructor
      · intro h
        exfalso
        cases hp : validatePriority task.Priority with
        | some e =>
          rw [hp] at h
          have := ((validatePriority_eq_some_iff task.Priority e).1 hp).1
          rw [this] at h
          cases h
        | none =>
          cases hs : validateStatus task.Status with
          | some e =>
            rw [hp, hs] at h
            have := ((validateStatus_eq_some_iff task.Status e).1 hs).1
            rw [this] at h
            cases h
          | none =>
            rw [hp, hs] at h
            rcases validateDueDate_eq_some loc now task.DueDate _ h with h' | h' <;> cases h'
      · intro h
        have := (validateCategory_eq_some_iff Letter task.Category
          (.sentinel .ErrInvalidCategory)).2 ⟨rfl, h⟩
        rw [hc] at this
        cases this
  exact ⟨hiff, rfl, fun h0 h => (hiff.1 h).1 h0⟩

theorem ValidateTask_category_rule_witness :
    validateTitle noLetters onlyTitleValidTask.Title = none ∧
    validateDescription ({ onlyTitleValidTask with Description := "" } : Task).Description = none ∧
    ({ onlyTitleValidTask with Description := "" } : Task).Category ≠ "" ∧
    (∃ c ∈ ({ onlyTitleValidTask with Description := "" } : Task).Category.data,
      IsLetter noLetters c = false ∧ IsSpace c = false ∧ c ≠ '-') ∧
    ValidateTask noLetters utcLoc sampleNow { onlyTitleValidTask with Description := "" }
      = some (.sentinel .ErrInvalidCategory) := by
  have h1 : validateTitle noLetters onlyTitleValidTask.Title = none := by decide
  have h2 : validateDescription
      ({ onlyTitleValidTask with Description := "" } : Task).Description = none := by decide
  have h3 : ({ onlyTitleValidTask with Description := "" } : Task).Category ≠ "" := by decide
  have h4 : ∃ c ∈ ({ onlyTitleValidTask with Description := "" } : Task).Category.data,
      IsLetter noLetters c = false ∧ IsSpace c = false ∧ c ≠ '-' :=
    ⟨'&', by decide, by decide, by decide, by decide⟩
  exact ⟨h1, h2, h3, h4,
    (ValidateTask_category_rule noLetters utcLoc sampleNow { onlyTitleValidTask with Description := "" }
      h1 h2).1.2 ⟨h3, Or.inr h4⟩⟩

/-- C16. For every task whose title, description and category are accepted,
`ValidateTask` returns an error that `errors.Is` matches with
`ErrInvalidPriority` exactly when the priority is none of the strings `LOW`,
`MEDIUM` and `HIGH`; the error is then `ErrInvalidPriority` wrapped with the
priority. -/
theorem ValidateTask_priority_rule (Letter : Char → Bool)
    (loc : Location) (now : Time) (task : Task)
    (h1 : validateTitle Letter task.Title = none)
    (h2 : validateDescription task.Description = none)
    (h3 : validateCategory Letter task.Category = none) :
    ((∃ e, ValidateTask Letter loc now task = some e ∧ errorsIs e .ErrInvalidPriority = true) ↔
      task.Priority ≠ "LOW" ∧ task.Priority ≠ "MEDIUM" ∧ task.Priority ≠ "HIGH") ∧
    (task.Priority ≠ "LOW" ∧ task.Priority ≠ "MEDIUM" ∧ task.Priority ≠ "HIGH" →
      ValidateTask Letter loc now task = some (.wrap .ErrInvalidPriority task.Priority)) := by
  have hbad : task.Priority ≠ "LOW" ∧ task.Priority ≠ "MEDIUM" ∧ task.Priority ≠ "HIGH" →
      ValidateTask Letter loc now task = some (.wrap .ErrInvalidPriority task.Priority) := by
    intro h
    rw [ValidateTask_eq, h1, h2, h3,
      (validatePriority_eq_some_iff task.Priority _).2 ⟨rfl, h⟩]
    rfl
  refine ⟨⟨?_, fun h => ⟨_, hbad h, rfl⟩⟩, hbad⟩
  rintro ⟨e, he, his⟩
  rw [ValidateTask_eq, h1, h2, h3] at he
  cases hp : validatePriority task.Priority with
  | some e1 => exact ((validatePriority_eq_some_iff task.Priority e1).1 hp).2
  | none =>
    exfalso
    cases hs : validateStatus task.Status with
    | some e2 =>
      rw [hp, hs] at he
      have := ((validateStatus_eq_some_iff task.Status e2).1 hs).1
      cases he
      rw [this] at his
      cases his
    | none =>
      rw [hp, hs] at he
      rcases validateDueDate_eq_some loc now task.DueDate _ he with h' | h' <;>
        (rw [h'] at his; cases his)

theorem ValidateTask_priority_rule_witness :
    validateTitle noLetters sampleTask.Title = none ∧
    validateDescription sampleTask.Description = none ∧
    validateCategory noLetters sampleTask.Category = none ∧
    ValidateTask noLetters utcLoc sampleNow { sampleTask with Priority := "" }
      = some (.wrap .ErrInvalidPriority "") ∧
    ValidateTask noLetters utcLoc sampleNow { sampleTask with Priority := "low" }
      = some (.wrap .ErrInvalidPriority "low") ∧
    errorsIs (.wrap .ErrInvalidPriority "low") .ErrInvalidPriority = true := by
  have h1 : validateTitle noLetters sampleTask.Title = none := by decide
  have h2 : validateDescription sampleTask.Description = none := by decide
  have h3 : validateCategory noLetters sampleTask.Category = none := by decide
  exact ⟨h1, h2, h3,
    (ValidateTask_priority_rule noLetters utcLoc sampleNow { sampleTask with Priority := "" }
      h1 h2 h3).2 (by decide),
    (ValidateTask_priority_rule noLetters utcLoc sampleNow { sampleTask with Priority := "low" }
      h1 h2 h3).2 (by decide),
    rfl⟩

/-! ## UpdateTask and the stored status -/

theorem UpdateTask_of_valid (Letter : Char → Bool) (loc : Location) (s : TaskService) (t : Task)
    (nowV now : Time) (hv : ValidateTask Letter loc nowV t = none) (hmem : t.ID ∈ s.repo.tasks) :
    s.UpdateTask Letter loc t nowV now =
      (none, ⟨⟨s.repo.tasks.insert t.ID { t with UpdatedAt := now }⟩⟩) := by
  simp only [TaskService.UpdateTask, hv, Update_of_mem s.repo t now hmem]

/-- C17. For every service whose repository holds a record under `t.ID`,
whatever the status of that record, and every `t` that passes `ValidateTask`,
`UpdateTask` succeeds and the record then stored has the status of `t`. The
outcome does not depend on the stored status: with any other status in the
stored record, `UpdateTask` returns the same error or none, and when `t` is
valid the records stored afterwards are the same under every identifier. A
task whose status is none of `TODO`, `IN_PROGRESS`, `DONE`, `BLOCKED` is
never written: `validateStatus` returns `ErrInvalidStatus` wrapped with the
status, `UpdateTask` fails and leaves the service as it was, and the error is
that one whenever title, description, category and priority are accepted. -/
theorem UpdateTask_any_status_transition (Letter : Char → Bool)
    (loc : Location) (s : TaskService) (t : Task)
    (nowV now : Time) (old : Task) (hold : s.repo.tasks.lookup t.ID = some old) :
    (ValidateTask Letter loc nowV t = none →
      ∃ s1 stored, s.UpdateTask Letter loc t nowV now = (none, s1) ∧
        s1.repo.tasks.lookup t.ID = some stored ∧ stored.Status = t.Status) ∧
    (∀ (s2 : TaskService) (status : Status),
      s2.repo.tasks.lookup t.ID = some { old with Status := status } →
      (∀ k, k ≠ t.ID → s2.repo.tasks.lookup k = s.repo.tasks.lookup k) →
      (s2.UpdateTask Letter loc t nowV now).1 = (s.UpdateTask Letter loc t nowV now).1 ∧
      (ValidateTask Letter loc nowV t = none →
        ∀ k, (s2.UpdateTask Letter loc t nowV now).2.repo.tasks.lookup k
          = (s.UpdateTask Letter loc t nowV now).2.repo.tasks.lookup k)) ∧
    (t.Status ≠ "TODO" ∧ t.Status ≠ "IN_PROGRESS" ∧ t.Status ≠ "DONE" ∧ t.Status ≠ "BLOCKED" →
      validateStatus t.Status = some (.wrap .ErrInvalidStatus t.Status) ∧
      errorsIs (.wrap .ErrInvalidStatus t.Status) .ErrInvalidStatus = true ∧
      (∃ err, s.UpdateTask Letter loc t nowV now = (some err, s)) ∧
      (validateTitle Letter t.Title = none → validateDescription t.Description = none →
        validateCategory Letter t.Category = none → validatePriority t.Priority = none →
        s.UpdateTask Letter loc t nowV now = (some (.wrap .ErrInvalidStatus t.Status), s))) := by
  have hmem : t.ID ∈ s.repo.tasks := mem_of_lookup_eq_some hold
  refine ⟨fun hv => ⟨_, { t with UpdatedAt := now }, UpdateTask_of_valid Letter loc s t nowV now hv hmem,
    AList.lookup_insert _, rfl⟩, ?_, ?_⟩
  · intro s2 status hold2 hsame
    have hmem2 : t.ID ∈ s2.repo.tasks := mem_of_lookup_eq_some hold2
    cases hv : ValidateTask Letter loc nowV t with
    | some err =>
      rw [(UpdateTask_invalid_eq Letter loc s2 t nowV now err hv),
        (UpdateTask_invalid_eq Letter loc s t nowV now err hv)]
      exact ⟨rfl, fun h => by cases h⟩
    | none =>
      rw [UpdateTask_of_valid Letter loc s2 t nowV now hv hmem2,
        UpdateTask_of_valid Letter loc s t nowV now hv hmem]
      refine ⟨rfl, fun _ k => ?_⟩
      by_cases hk : k = t.ID
      · subst hk
        show (s2.repo.tasks.insert t.ID _).lookup t.ID = (s.repo.tasks.insert t.ID _).lookup t.ID
        rw [AList.lookup_insert, AList.lookup_insert]
      · show (s2.repo.tasks.insert t.ID _).lookup k = (s.repo.tasks.insert t.ID _).lookup k
        rw [AList.lookup_insert_ne hk, AList.lookup_insert_ne hk, hsame k hk]
  · intro hbad
    have hs : validateStatus t.Status = some (.wrap .ErrInvalidStatus t.Status) :=
      (validateStatus_eq_some_iff t.Status _).2 ⟨rfl, hbad⟩
    refine ⟨hs, rfl, ?_, fun h1 h2 h3 h4 => ?_⟩
    · cases hv : ValidateTask Letter loc nowV t with
      | some err => exact ⟨err, UpdateTask_invalid_eq Letter loc s t nowV now err hv⟩
      | none =>
        exfalso
        rw [ValidateTask_eq] at hv
        cases h1 : validateTitle Letter t.Title <;>
        cases h2 : validateDescription t.Description <;>
        cases h3 : validateCategory Letter t.Category <;>
        cases h4 : validatePriority t.Priority <;>
        simp [h1, h2, h3, h4, hs, Option.orElse] at hv
    · apply UpdateTask_invalid_eq
      rw [ValidateTask_eq, h1, h2, h3, h4, hs]
      rfl

theorem UpdateTask_any_status_transition_witness :
    (NewTaskService sampleRepo).repo.tasks.lookup sampleID1 = some sampleTask ∧
    sampleTask.Status = "DONE" ∧
    ValidateTask noLetters utcLoc sampleNow { sampleTask with Status := "TODO" } = none ∧
    (∃ s1 stored,
      (NewTaskService sampleRepo).UpdateTask noLetters utcLoc { sampleTask with Status := "TODO" }
        sampleNow (sampleNow + 9) = (none, s1) ∧
      s1.repo.tasks.lookup sampleID1 = some stored ∧ stored.Status = "TODO") ∧
    (NewTaskService sampleRepo).UpdateTask noLetters utcLoc { sampleTask with Status := "ARCHIVED" }
        sampleNow (sampleNow + 9)
      = (some (.wrap .ErrInvalidStatus "ARCHIVED"), NewTaskService sampleRepo) := by
  have h0 : (NewTaskService sampleRepo).repo.tasks.lookup sampleID1 = some sampleTask := by
    decide
  have hv : ValidateTask noLetters utcLoc sampleNow { sampleTask with Status := "TODO" } = none := by
    decide
  exact ⟨h0, rfl, hv,
    (UpdateTask_any_status_transition noLetters utcLoc (NewTaskService sampleRepo)
      { sampleTask with Status := "TODO" } sampleNow (sampleNow + 9) sampleTask h0).1 hv,
    ((UpdateTask_any_status_transition noLetters utcLoc (NewTaskService sampleRepo)
      { sampleTask with Status := "ARCHIVED" } sampleNow (sampleNow + 9) sampleTask h0).2.2
        (by decide)).2.2.2 (by decide) (by decide) (by decide) (by decide)⟩

/-! ## BatchValidate -/

/-- What the loop of `BatchValidate` leaves under each index, when the map
holds nothing yet at the indices still to be visited. -/
theorem BatchValidate_loop_lookup (Letter : Char → Bool) (loc : Location) (clock : Nat → Time)
    (rest : List Task) (i : Nat) (acc : AList (fun _ : Nat => GoError))
    (hacc : ∀ j, i ≤ j → acc.lookup j = none) (k : Nat) :
    (BatchValidate.loop Letter loc clock i rest acc).lookup k =
      if k < i then acc.lookup k else (rest[k - i]?).bind (ValidateTask Letter loc (clock k)) := by
  induction rest generalizing i acc with
  | nil =>
    unfold BatchValidate.loop
    by_cases hk : k < i
    · rw [if_pos hk]
    · rw [if_neg hk, hacc k (Nat.le_of_not_lt hk)]
      rfl
  | cons t rest ih =>
    have hstep : ∀ acc1 : AList (fun _ : Nat => GoError),
        (∀ j, i + 1 ≤ j → acc1.lookup j = none) →
        acc1.lookup i = ValidateTask Letter loc (clock i) t →
        (∀ j, j < i → acc1.lookup j = acc.lookup j) →
        (BatchValidate.loop Letter loc clock (i + 1) rest acc1).lookup k =
          if k < i then acc.lookup k
          else ((t :: rest)[k - i]?).bind (ValidateTask Letter loc (clock k)) := by
      intro acc1 h1 h2 h3
      rw [ih (i + 1) acc1 h1]
      by_cases hk : k < i
      · rw [if_pos (Nat.lt_succ_of_lt hk), if_pos hk, h3 k hk]
      · rw [if_neg hk]
        by_cases hki : k = i
        · subst hki
          rw [if_pos (Nat.lt_succ_self k), h2, Nat.sub_self]
          simp
        · have hgt : i < k := Nat.lt_of_le_of_ne (Nat.le_of_not_lt hk) (Ne.symm hki)
          rw [if_neg (by omega)]
          have : k - i = (k - (i + 1)) + 1 := by omega
          rw [this, List.getElem?_cons_succ]
    unfold BatchValidate.loop
    cases hv : ValidateTask Letter loc (clock i) t with
    | some err =>
      refine hstep (acc.insert i err) (fun j hj => ?_)
        ((AList.lookup_insert _).trans hv.symm) (fun j hj => ?_)
      · rw [AList.lookup_insert_ne (by omega), hacc j (by omega)]
      · rw [AList.lookup_insert_ne (by omega)]
    | none =>
      exact hstep acc (fun j hj => hacc j (by omega))
        ((hacc i (Nat.le_refl i)).trans hv.symm) (fun _ _ => rfl)

theorem BatchValidate_lookup (Letter : Char → Bool)
    (loc : Location) (clock : Nat → Time) (tasks : List Task)
    (k : Nat) :
    (BatchValidate Letter loc clock tasks).lookup k
      = (tasks[k]?).bind (ValidateTask Letter loc (clock k)) := by
  unfold BatchValidate
  rw [BatchValidate_loop_lookup Letter loc clock tasks 0 ∅ (fun j _ => AList.lookup_empty j) k,
    if_neg (Nat.not_lt_zero k), Nat.sub_zero]

theorem alist_eq_empty_of_lookup (m : AList (fun _ : Nat => GoError))
    (h : ∀ k, m.lookup k = none) : m = ∅ := by
  apply AList.ext
  have hk : m.keys = [] :=
    List.eq_nil_iff_forall_not_mem.2 fun k hk =>
      (AList.lookup_eq_none.1 (h k)) (AList.mem_keys.2 hk)
  exact List.map_eq_nil_iff.1 hk

/-- C18. For every sequence of tasks, the mapping `BatchValidate` returns holds
an error under index `i` exactly when `i` is the index of a task of the
sequence on which `ValidateTask` fails, and the error is the one `ValidateTask`
returns for that task; so its indices are exactly the failing ones, its size is
the number of indices with a failing task, and it is empty when every task
passes. -/
theorem BatchValidate_failing_indices (Letter : Char → Bool) (loc : Location) (clock : Nat → Time)
    (tasks : List Task) :
    (∀ i e, (BatchValidate Letter loc clock tasks).lookup i = some e ↔
      ∃ t, tasks[i]? = some t ∧ ValidateTask Letter loc (clock i) t = some e) ∧
    (∀ i, i ∈ BatchValidate Letter loc clock tasks ↔
      ∃ t, tasks[i]? = some t ∧ ValidateTask Letter loc (clock i) t ≠ none) ∧
    (BatchValidate Letter loc clock tasks).entries.length =
      ((List.range tasks.length).filter fun i =>
        ((tasks[i]?).bind (ValidateTask Letter loc (clock i))).isSome).length ∧
    ((∀ i t, tasks[i]? = some t → ValidateTask Letter loc (clock i) t = none) →
      BatchValidate Letter loc clock tasks = ∅) := by
  have hlook := BatchValidate_lookup Letter loc clock tasks
  have hsome : ∀ i e, (BatchValidate Letter loc clock tasks).lookup i = some e ↔
      ∃ t, tasks[i]? = some t ∧ ValidateTask Letter loc (clock i) t = some e := by
    intro i e
    rw [hlook i]
    exact Option.bind_eq_some
  have hmem : ∀ i, i ∈ BatchValidate Letter loc clock tasks ↔
      ((tasks[i]?).bind (ValidateTask Letter loc (clock i))).isSome = true := by
    intro i
    rw [← AList.lookup_isSome, hlook i]
  refine ⟨hsome, fun i => ?_, ?_, fun hall => ?_⟩
  · rw [hmem i, Option.isSome_iff_exists]
    constructor
    · rintro ⟨e, he⟩
      obtain ⟨t, ht, hv⟩ := Option.bind_eq_some.1 he
      exact ⟨t, ht, by rw [hv]; exact Option.some_ne_none e⟩
    · rintro ⟨t, ht, hv⟩
      obtain ⟨e, he⟩ := Option.ne_none_iff_exists'.1 hv
      exact ⟨e, Option.bind_eq_some.2 ⟨t, ht, he⟩⟩
  · have hperm : (BatchValidate Letter loc clock tasks).keys.Perm
        ((List.range tasks.length).filter fun i =>
          ((tasks[i]?).bind (ValidateTask Letter loc (clock i))).isSome) := by
      rw [List.perm_ext_iff_of_nodup (AList.keys_nodup _)
        ((List.nodup_range _).filter _)]
      intro i
      rw [← AList.mem_keys, hmem i, List.mem_filter, List.mem_range]
      constructor
      · intro h
        refine ⟨?_, h⟩
        by_contra hge
        rw [List.getElem?_eq_none (Nat.le_of_not_lt hge)] at h
        cases h
      · exact fun h => h.2
    have hlen := hperm.length_eq
    rw [← hlen]
    simp [AList.keys, List.keys]
  · apply alist_eq_empty_of_lookup
    intro k
    rw [hlook k]
    cases hk : tasks[k]? with
    | none => rfl
    | some t => exact hall k t hk

theorem BatchValidate_failing_indices_witness :
    (BatchValidate noLetters utcLoc tickingClock batchTasks).lookup 1
      = some (.sentinel .ErrEmptyTitle) ∧
    (BatchValidate noLetters utcLoc tickingClock batchTasks).lookup 0 = none ∧
    (BatchValidate noLetters utcLoc tickingClock batchTasks).entries.length = 1 ∧
    (∀ i t, [sampleTask, sampleTask][i]? = some t →
      ValidateTask noLetters utcLoc (tickingClock i) t = none) ∧
    BatchValidate noLetters utcLoc tickingClock [sampleTask, sampleTask] = ∅ := by
  have hall : ∀ i t, [sampleTask, sampleTask][i]? = some t →
      ValidateTask noLetters utcLoc (tickingClock i) t = none := by
    intro i t h
    match i, h with
    | 0, h => cases h; decide
    | 1, h => cases h; decide
    | n + 2, h => cases h
  exact ⟨((BatchValidate_failing_indices noLetters utcLoc tickingClock batchTasks).1 1 _).2
      ⟨_, rfl, by decide⟩,
    by decide,
    (BatchValidate_failing_indices noLetters utcLoc tickingClock batchTasks).2.2.1.trans (by decide),
    hall,
    (BatchValidate_failing_indices noLetters utcLoc tickingClock [sampleTask, sampleTask]).2.2.2 hall⟩

/-! ## FilterValidationError -/

/-- An error matches at most one package-level variable. -/
theorem errorsIs_unique (err : GoError) (a b : Sentinel)
    (ha : errorsIs err a = true) (hb : errorsIs err b = true) : a = b := by
  cases err with
  | sentinel e =>
    simp only [errorsIs, decide_eq_true_eq] at ha hb
    rw [← ha, ← hb]
  | fresh msg => cases ha
  | wrap e detail =>
    simp only [errorsIs, decide_eq_true_eq] at ha hb
    rw [← ha, ← hb]

/-- C19. `FilterValidationError` gives an error that is or wraps
`ErrEmptyTitle`, `ErrTitleTooLong`, `ErrInvalidPriority`, `ErrInvalidStatus`
or `ErrDueDateInPast` the fixed message of that kind, and gives every error
that neither is nor wraps one of these five the message
`Invalid task details`. -/
theorem FilterValidationError_table (err : GoError) :
    (errorsIs err .ErrEmptyTitle = true →
      FilterValidationError err = "Please provide a valid task title") ∧
    (errorsIs err .ErrTitleTooLong = true →
      FilterValidationError err = "Task title is too long (max 100 characters)") ∧
    (errorsIs err .ErrInvalidPriority = true →
      FilterValidationError err = "Invalid priority level") ∧
    (errorsIs err .ErrInvalidStatus = true →
      FilterValidationError err = "Invalid task status") ∧
    (errorsIs err .ErrDueDateInPast = true →
      FilterValidationError err = "Due date cannot be in the past") ∧
    (errorsIs err .ErrEmptyTitle = false → errorsIs err .ErrTitleTooLong = false →
      errorsIs err .ErrInvalidPriority = false → errorsIs err .ErrInvalidStatus = false →
      errorsIs err .ErrDueDateInPast = false →
      FilterValidationError err = "Invalid task details") := by
  have hne : ∀ a b : Sentinel, a ≠ b → errorsIs err a = true → errorsIs err b = false := by
    intro a b hab ha
    cases hb : errorsIs err b with
    | false => rfl
    | true => exact absurd (errorsIs_unique err a b ha hb) hab
  refine ⟨fun h => ?_, fun h => ?_, fun h => ?_, fun h => ?_, fun h => ?_,
    fun h1 h2 h3 h4 h5 => ?_⟩
  · simp [FilterValidationError, h]
  · simp [FilterValidationError, h, hne _ .ErrEmptyTitle (by decide) h]
  · simp [FilterValidationError, h, hne _ .ErrEmptyTitle (by decide) h,
      hne _ .ErrTitleTooLong (by decide) h]
  · simp [FilterValidationError, h, hne _ .ErrEmptyTitle (by decide) h,
      hne _ .ErrTitleTooLong (by decide) h, hne _ .ErrInvalidPriority (by decide) h]
  · simp [FilterValidationError, h, hne _ .ErrEmptyTitle (by decide) h,
      hne _ .ErrTitleTooLong (by decide) h, hne _ .ErrInvalidPriority (by decide) h,
      hne _ .ErrInvalidStatus (by decide) h]
  · simp [FilterValidationError, h1, h2, h3, h4, h5]

theorem FilterValidationError_table_witness :
    FilterValidationError (.sentinel .ErrEmptyTitle) = "Please provide a valid task title" ∧
    FilterValidationError (.sentinel .ErrTitleTooLong)
      = "Task title is too long (max 100 characters)" ∧
    FilterValidationError (.sentinel .ErrInvalidPriority) = "Invalid priority level" ∧
    FilterValidationError (.wrap .ErrInvalidPriority "URGENT") = "Invalid priority level" ∧
    FilterValidationError (.sentinel .ErrInvalidStatus) = "Invalid task status" ∧
    FilterValidationError (.sentinel .ErrDueDateInPast) = "Due date cannot be in the past" ∧
    FilterValidationError (.fresh "unknown error") = "Invalid task details" ∧
    FilterValidationError (.sentinel .ErrDescriptionTooLong) = "Invalid task details" :=
  ⟨(FilterValidationError_table _).1 rfl,
    (FilterValidationError_table _).2.1 rfl,
    (FilterValidationError_table _).2.2.1 rfl,
    (FilterValidationError_table _).2.2.1 rfl,
    (FilterValidationError_table _).2.2.2.1 rfl,
    (FilterValidationError_table _).2.2.2.2.1 rfl,
    (FilterValidationError_table _).2.2.2.2.2 rfl rfl rfl rfl rfl,
    (FilterValidationError_table _).2.2.2.2.2 rfl rfl rfl rfl rfl⟩

/-! ## List -/

theorem matchesFilters_loop_iff (task : Task)
    (l : List (Sigma (fun _ : String => FilterValue))) :
    matchesFilters.loop task l = true ↔ ∀ e ∈ l, filterRejects task e.1 e.2 = false := by
  induction l with
  | nil => simp [matchesFilters.loop]
  | cons e rest ih =>
    obtain ⟨key, value⟩ := e
    unfold matchesFilters.loop
    cases h : filterRejects task key value with
    | true => simp [h]
    | false => simp [h, ih]

theorem matchesFilters_iff (task : Task) (filters : Filters) :
    matchesFilters task filters = true ↔
      ∀ key value, filters.lookup key = some value → filterRejects task key value = false := by
  unfold matchesFilters
  rw [matchesFilters_loop_iff]
  constructor
  · intro h key value hl
    exact h ⟨key, value⟩ (AList.mem_lookup_iff.1 hl)
  · rintro h ⟨key, value⟩ he
    exact h key value (AList.mem_lookup_iff.2 he)

theorem filterRejects_title (task : Task) (value : FilterValue) :
    filterRejects task "title" value = false ↔ value = .string task.Title := by
  unfold filterRejects
  rw [if_pos rfl, decide_eq_false_iff_not, not_not]
  exact eq_comm

theorem filterRejects_category (task : Task) (value : FilterValue) :
    filterRejects task "category" value = false ↔ value = .string task.Category := by
  unfold filterRejects
  rw [if_neg (by decide), if_pos rfl, decide_eq_false_iff_not, not_not]
  exact eq_comm

theorem filterRejects_status (task : Task) (value : FilterValue) :
    filterRejects task "status" value = false ↔ value = .status task.Status := by
  unfold filterRejects
  rw [if_neg (by decide), if_neg (by decide), if_pos rfl, decide_eq_false_iff_not, not_not]
  exact eq_comm

theorem filterRejects_priority (task : Task) (value : FilterValue) :
    filterRejects task "priority" value = false ↔ value = .priority task.Priority := by
  unfold filterRejects
  rw [if_neg (by decide), if_neg (by decide), if_neg (by decide), if_pos rfl,
    decide_eq_false_iff_not, not_not]
  exact eq_comm

theorem filterRejects_due_date (task : Task) (value : FilterValue) :
    filterRejects task "due_date" value = false ↔ value = .time task.DueDate := by
  unfold filterRejects
  rw [if_neg (by decide), if_neg (by decide), if_neg (by decide), if_neg (by decide),
    if_pos rfl]
  cases value with
  | time t =>
    simp only [Bool.not_eq_false', decide_eq_true_eq, FilterValue.time.injEq]
    exact eq_comm
  | string s => simp
  | status s => simp
  | priority p => simp
  | other tag => simp

theorem filterRejects_other_key (task : Task) (key : String) (value : FilterValue)
    (k1 : key ≠ "title") (k2 : key ≠ "category") (k3 : key ≠ "status")
    (k4 : key ≠ "priority") (k5 : key ≠ "due_date") :
    filterRejects task key value = false := by
  unfold filterRejects
  rw [if_neg k1, if_neg k2, if_neg k3, if_neg k4, if_neg k5]

/-- The loop of `matchesFilters` decides the predicate of the specification. -/
theorem matchesFilters_eq_specMatches (task : Task) (filters : Filters) :
    matchesFilters task filters = specMatches task filters := by
  rw [Bool.eq_iff_iff, matchesFilters_iff]
  unfold specMatches
  simp only [Bool.and_eq_true]
  constructor
  · intro h
    refine ⟨⟨⟨⟨?_, ?_⟩, ?_⟩, ?_⟩, ?_⟩
    · cases hl : filters.lookup "title" with
      | none => rfl
      | some v => exact decide_eq_true ((filterRejects_title task v).1 (h _ _ hl))
    · cases hl : filters.lookup "category" with
      | none => rfl
      | some v => exact decide_eq_true ((filterRejects_category task v).1 (h _ _ hl))
    · cases hl : filters.lookup "status" with
      | none => rfl
      | some v => exact decide_eq_true ((filterRejects_status task v).1 (h _ _ hl))
    · cases hl : filters.lookup "priority" with
      | none => rfl
      | some v => exact decide_eq_true ((filterRejects_priority task v).1 (h _ _ hl))
    · cases hl : filters.lookup "due_date" with
      | none => rfl
      | some v => exact decide_eq_true ((filterRejects_due_date task v).1 (h _ _ hl))
  · rintro ⟨⟨⟨⟨h1, h2⟩, h3⟩, h4⟩, h5⟩ key value hl
    by_cases k1 : key = "title"
    · subst k1
      rw [hl] at h1
      exact (filterRejects_title task value).2 (of_decide_eq_true h1)
    by_cases k2 : key = "category"
    · subst k2
      rw [hl] at h2
      exact (filterRejects_category task value).2 (of_decide_eq_true h2)
    by_cases k3 : key = "status"
    · subst k3
      rw [hl] at h3
      exact (filterRejects_status task value).2 (of_decide_eq_true h3)
    by_cases k4 : key = "priority"
    · subst k4
      rw [hl] at h4
      exact (filterRejects_priority task value).2 (of_decide_eq_true h4)
    by_cases k5 : key = "due_date"
    · subst k5
      rw [hl] at h5
      exact (filterRejects_due_date task value).2 (of_decide_eq_true h5)
    exact filterRejects_other_key task key value k1 k2 k3 k4 k5

theorem listLoop_eq (filters : Filters) (l : List (Sigma (fun _ : UUID => Task)))
    (acc : List Task) :
    listLoop filters l acc
      = acc ++ (l.map Sigma.snd).filter (fun t => matchesFilters t filters) := by
  induction l generalizing acc with
  | nil => simp [listLoop]
  | cons e rest ih =>
    obtain ⟨id, task⟩ := e
    unfold listLoop
    cases h : matchesFilters task filters with
    | true => simp [h, ih]
    | false => simp [h, ih]

theorem mem_stored_iff (r : InMemoryTaskRepository) (t : Task) :
    t ∈ r.tasks.entries.map Sigma.snd ↔ ∃ id, r.tasks.lookup id = some t := by
  rw [List.mem_map]
  constructor
  · rintro ⟨⟨id, t1⟩, he, rfl⟩
    exact ⟨id, AList.mem_lookup_iff.2 he⟩
  · rintro ⟨id, hl⟩
    exact ⟨⟨id, t⟩, AList.mem_lookup_iff.1 hl, rfl⟩

theorem specMatches_empty (task : Task) : specMatches task ∅ = true := by
  simp [specMatches, AList.lookup_empty]

/-- C20. For every repository and every filter map, `List` returns no error
and a sequence that holds, each once and in an order that is not part of the
contract, exactly the stored tasks that match every supplied filter among
`title`, `category`, `status`, `priority` and `due_date`; with no filter this
is the sequence of all stored tasks, and when no stored task matches it is the
empty sequence. -/
theorem List_returns_matching (r : InMemoryTaskRepository) (filters : Filters) :
    ∃ tasks, r.List filters = Except.ok tasks ∧
      tasks.Perm ((r.tasks.entries.map Sigma.snd).filter fun t => specMatches t filters) ∧
      (∀ t, t ∈ tasks ↔ ∃ id, r.tasks.lookup id = some t ∧ specMatches t filters = true) ∧
      (filters = ∅ → tasks.Perm (r.tasks.entries.map Sigma.snd)) ∧
      ((∀ id t, r.tasks.lookup id = some t → specMatches t filters = false) → tasks = []) := by
  have hfun : (fun t => matchesFilters t filters) = fun t => specMatches t filters :=
    funext fun t => matchesFilters_eq_specMatches t filters
  have hrun : r.List filters =
      Except.ok ((r.tasks.entries.map Sigma.snd).filter fun t => specMatches t filters) := by
    unfold InMemoryTaskRepository.List
    rw [listLoop_eq, hfun, List.nil_append]
  refine ⟨_, hrun, List.Perm.refl _, fun t => ?_, fun h0 => ?_, fun hnone => ?_⟩
  · rw [List.mem_filter, mem_stored_iff]
    constructor
    · rintro ⟨⟨id, hl⟩, hm⟩
      exact ⟨id, hl, hm⟩
    · rintro ⟨id, hl, hm⟩
      exact ⟨⟨id, hl⟩, hm⟩
  · subst h0
    rw [List.filter_eq_self.2 fun t _ => specMatches_empty t]
  · rw [List.filter_eq_nil_iff]
    intro t ht
    obtain ⟨id, hl⟩ := (mem_stored_iff r t).1 ht
    rw [hnone id t hl]
    exact Bool.false_ne_true

theorem List_returns_matching_witness :
    twoTaskRepo.tasks.lookup sampleID1 = some sampleTask ∧
    twoTaskRepo.tasks.lookup sampleID2 = some otherTask ∧
    sampleTask.Status = "DONE" ∧ otherTask.Status = "TODO" ∧
    twoTaskRepo.List todoFilter = Except.ok [otherTask] ∧
    (∃ tasks, twoTaskRepo.List ∅ = Except.ok tasks ∧ tasks.Perm [sampleTask, otherTask]) ∧
    (∀ id t, twoTaskRepo.tasks.lookup id = some t → specMatches t blockedLowFilter = false) ∧
    twoTaskRepo.List blockedLowFilter = Except.ok [] := by
  have hnone : ∀ id t, twoTaskRepo.tasks.lookup id = some t →
      specMatches t blockedLowFilter = false := by
    intro id t hl
    have hmem : t ∈ twoTaskRepo.tasks.entries.map Sigma.snd :=
      (mem_stored_iff twoTaskRepo t).2 ⟨id, hl⟩
    have hall : ∀ t ∈ twoTaskRepo.tasks.entries.map Sigma.snd,
        specMatches t blockedLowFilter = false := by decide
    exact hall t hmem
  obtain ⟨tasks, hrun, -, -, -, hempty⟩ := List_returns_matching twoTaskRepo blockedLowFilter
  obtain ⟨all, hall, -, -, hno, -⟩ := List_returns_matching twoTaskRepo ∅
  refine ⟨by decide, by decide, rfl, rfl, rfl, ⟨all, hall, ?_⟩, hnone, ?_⟩
  · exact (hno rfl).trans (List.Perm.swap _ _ _)
  · rw [hrun, hempty hnone]

/-! ## Filter keys that are not recognised -/

theorem specMatches_insert_other_key (task : Task) (filters : Filters) (key : String)
    (value : FilterValue) (k1 : key ≠ "title") (k2 : key ≠ "category") (k3 : key ≠ "status")
    (k4 : key ≠ "priority") (k5 : key ≠ "due_date") :
    specMatches task (filters.insert key value) = specMatches task filters := by
  unfold specMatches
  rw [AList.lookup_insert_ne (Ne.symm k1), AList.lookup_insert_ne (Ne.symm k2),
    AList.lookup_insert_ne (Ne.symm k3), AList.lookup_insert_ne (Ne.symm k4),
    AList.lookup_insert_ne (Ne.symm k5)]

theorem List_eq_filter (r : InMemoryTaskRepository) (filters : Filters) :
    r.List filters =
      Except.ok ((r.tasks.entries.map Sigma.snd).filter fun t => specMatches t filters) := by
  have hfun : (fun t => matchesFilters t filters) = fun t => specMatches t filters :=
    funext fun t => matchesFilters_eq_specMatches t filters
  unfold InMemoryTaskRepository.List
  rw [listLoop_eq, hfun, List.nil_append]

/-- C21. For every repository, every filter map and every key other than
`title`, `category`, `status`, `priority` and `due_date`, putting that key
with any value into the filter map changes neither what `matchesFilters`
answers for any task nor what `List` returns, which is still a sequence and no
error. -/
theorem List_ignores_other_keys (r : InMemoryTaskRepository) (filters : Filters)
    (key : String) (value : FilterValue) (k1 : key ≠ "title") (k2 : key ≠ "category")
    (k3 : key ≠ "status") (k4 : key ≠ "priority") (k5 : key ≠ "due_date") :
    (∀ task, matchesFilters task (filters.insert key value) = matchesFilters task filters) ∧
    r.List (filters.insert key value) = r.List filters ∧
    ∃ tasks, r.List (filters.insert key value) = Except.ok tasks := by
  have hspec : (fun t => specMatches t (filters.insert key value))
      = fun t => specMatches t filters :=
    funext fun t => specMatches_insert_other_key t filters key value k1 k2 k3 k4 k5
  refine ⟨fun task => ?_, ?_, _, List_eq_filter r _⟩
  · rw [matchesFilters_eq_specMatches, matchesFilters_eq_specMatches,
      specMatches_insert_other_key task filters key value k1 k2 k3 k4 k5]
  · rw [List_eq_filter, List_eq_filter, hspec]

theorem List_ignores_other_keys_witness :
    twoTaskRepo.List (todoFilter.insert "page" (.other 7)) = twoTaskRepo.List todoFilter ∧
    twoTaskRepo.List (todoFilter.insert "page" (.other 7)) = Except.ok [otherTask] :=
  ⟨(List_ignores_other_keys twoTaskRepo todoFilter "page" (.other 7)
      (by decide) (by decide) (by decide) (by decide) (by decide)).2.1,
    rfl⟩

/-! ## Delete -/

theorem Delete_of_mem (r : InMemoryTaskRepository) (id : UUID) (h : id ∈ r.tasks) :
    r.Delete id = (none, ⟨r.tasks.erase id⟩) := by
  obtain ⟨old, hold⟩ := Option.isSome_iff_exists.1 (AList.lookup_isSome.2 h)
  simp only [InMemoryTaskRepository.Delete, hold]

theorem Delete_of_not_mem (r : InMemoryTaskRepository) (id : UUID) (h : id ∉ r.tasks) :
    r.Delete id = (some errTaskNotFound, r) := by
  simp only [InMemoryTaskRepository.Delete, AList.lookup_eq_none.2 h]

/-- Removing a key that is present leaves one entry fewer. -/
theorem length_erase_of_mem (m : AList (fun _ : UUID => Task)) (k : UUID) (h : k ∈ m) :
    (m.erase k).entries.length + 1 = m.entries.length := by
  have h1 : (m.erase k).keys.length + 1 = m.keys.length := by
    rw [AList.keys_erase, List.length_erase_of_mem (AList.mem_keys.1 h)]
    have : 0 < m.keys.length := List.length_pos_of_mem (AList.mem_keys.1 h)
    omega
  simpa [AList.keys, List.keys] using h1

/-- C22. For every repository and identifier: when the identifier is stored,
`Delete` succeeds, `GetByID` of it then fails with the error `task not found`,
every record under another identifier is the one that was there, one record
fewer is stored, and a second `Delete` of it fails with `task not found`; when
the identifier is not stored, `Delete` fails with `task not found` and the
repository is as before. -/
theorem Delete_removes_record (r : InMemoryTaskRepository) (id : UUID) :
    (id ∈ r.tasks →
      ∃ r1, r.Delete id = (none, r1) ∧
        r1.GetByID id = Except.error errTaskNotFound ∧
        (∀ k, k ≠ id → r1.tasks.lookup k = r.tasks.lookup k) ∧
        r1.size + 1 = r.size ∧
        r1.Delete id = (some errTaskNotFound, r1)) ∧
    (id ∉ r.tasks → r.Delete id = (some errTaskNotFound, r)) := by
  refine ⟨fun h => ⟨_, Delete_of_mem r id h, ?_, fun k hk => ?_, ?_, ?_⟩,
    Delete_of_not_mem r id⟩
  · exact GetByID_of_not_mem _ id (AList.lookup_eq_none.1 (AList.lookup_erase id r.tasks))
  · exact AList.lookup_erase_ne hk
  · exact length_erase_of_mem r.tasks id h
  · exact Delete_of_not_mem _ id (AList.lookup_eq_none.1 (AList.lookup_erase id r.tasks))

theorem Delete_removes_record_witness :
    sampleID1 ∈ twoTaskRepo.tasks ∧ sampleID3 ∉ twoTaskRepo.tasks ∧
    (∃ r1, twoTaskRepo.Delete sampleID1 = (none, r1) ∧
      r1.GetByID sampleID1 = Except.error errTaskNotFound ∧
      r1.tasks.lookup sampleID2 = some otherTask ∧ r1.size = 1 ∧
      r1.Delete sampleID1 = (some errTaskNotFound, r1)) ∧
    twoTaskRepo.Delete sampleID3 = (some errTaskNotFound, twoTaskRepo) := by
  have h1 : sampleID1 ∈ twoTaskRepo.tasks := by decide
  have h3 : sampleID3 ∉ twoTaskRepo.tasks := by decide
  obtain ⟨r1, hrun, hget, hother, hsize, hagain⟩ :=
    (Delete_removes_record twoTaskRepo sampleID1).1 h1
  refine ⟨h1, h3, ⟨r1, hrun, hget, ?_, ?_, hagain⟩,
    (Delete_removes_record twoTaskRepo sampleID3).2 h3⟩
  · rw [hother sampleID2 (by decide)]
    decide
  · have h2 : twoTaskRepo.size = 2 := by decide
    omega

/-! ## The methods of the service that only pass on -/

theorem DeleteTask_eq (s : TaskService) (id : UUID) :
    s.DeleteTask id = ((s.repo.Delete id).1, ⟨(s.repo.Delete id).2⟩) := by
  unfold TaskService.DeleteTask
  rcases s.repo.Delete id with ⟨_ | _, _⟩ <;> rfl

theorem GetTask_eq (s : TaskService) (id : UUID) : s.GetTask id = s.repo.GetByID id := by
  unfold TaskService.GetTask
  cases s.repo.GetByID id <;> rfl

theorem ListTasks_eq (s : TaskService) (filters : Filters) :
    s.ListTasks filters = s.repo.List filters := by
  unfold TaskService.ListTasks
  cases s.repo.List filters <;> rfl

/-- C23. For every service and argument, `GetTask`, `DeleteTask`, `ListTasks`
and `DuplicateTask` return the result, value or error, of `GetByID`, `Delete`,
`List` and `Duplicate` of the repository on the same argument, and leave the
repository as that method leaves it; no validation takes part. In particular
the error `task not found` of the repository is what the caller gets for an
identifier that is not stored. -/
theorem TaskService_passes_through (s : TaskService) (id : UUID) (filters : Filters)
    (newID : UUID) (now1 now2 : Time) :
    s.GetTask id = s.repo.GetByID id ∧
    s.DeleteTask id = ((s.repo.Delete id).1, ⟨(s.repo.Delete id).2⟩) ∧
    s.ListTasks filters = s.repo.List filters ∧
    s.DuplicateTask id newID now1 now2 =
      ((s.repo.Duplicate id newID now1 now2).1, ⟨(s.repo.Duplicate id newID now1 now2).2⟩) ∧
    (id ∉ s.repo.tasks →
      s.GetTask id = Except.error errTaskNotFound ∧
      s.DeleteTask id = (some errTaskNotFound, s) ∧
      s.DuplicateTask id newID now1 now2 = (Except.error errTaskNotFound, s)) := by
  refine ⟨GetTask_eq s id, DeleteTask_eq s id, ListTasks_eq s filters,
    DuplicateTask_eq s id newID now1 now2, fun h => ⟨?_, ?_, ?_⟩⟩
  · rw [GetTask_eq, GetByID_of_not_mem _ id h]
  · rw [DeleteTask_eq, Delete_of_not_mem _ id h]
  · rw [DuplicateTask_eq]
    simp only [InMemoryTaskRepository.Duplicate, AList.lookup_eq_none.2 h]

theorem TaskService_passes_through_witness :
    sampleID3 ∉ (NewTaskService twoTaskRepo).repo.tasks ∧
    (NewTaskService twoTaskRepo).GetTask sampleID3 = Except.error errTaskNotFound ∧
    (NewTaskService twoTaskRepo).DeleteTask sampleID3
      = (some errTaskNotFound, NewTaskService twoTaskRepo) ∧
    (NewTaskService twoTaskRepo).DuplicateTask sampleID3 sampleID1 sampleNow sampleNow
      = (Except.error errTaskNotFound, NewTaskService twoTaskRepo) ∧
    (NewTaskService twoTaskRepo).GetTask sampleID2 = Except.ok otherTask ∧
    (NewTaskService twoTaskRepo).ListTasks todoFilter = Except.ok [otherTask] := by
  have h3 : sampleID3 ∉ (NewTaskService twoTaskRepo).repo.tasks := by decide
  obtain ⟨-, -, -, -, hnf⟩ :=
    TaskService_passes_through (NewTaskService twoTaskRepo) sampleID3 todoFilter sampleID1
      sampleNow sampleNow
  obtain ⟨hget, -, hlist, -, -⟩ :=
    TaskService_passes_through (NewTaskService twoTaskRepo) sampleID2 todoFilter sampleID1
      sampleNow sampleNow
  exact ⟨h3, (hnf h3).1, (hnf h3).2.1, (hnf h3).2.2, hget.trans rfl, hlist.trans rfl⟩

/-! ## When a task is accepted -/

theorem option_eq_none_iff_forall_ne {α : Type} (o : Option α) :
    o = none ↔ ∀ a, o ≠ some a := by
  cases o with
  | none => exact ⟨fun _ a h => (by cases h), fun _ => rfl⟩
  | some b => exact ⟨fun h => (by cases h), fun h => absurd rfl (h b)⟩

theorem ValidateTask_eq_none_iff (Letter : Char → Bool)
    (loc : Location) (now : Time) (task : Task) :
    ValidateTask Letter loc now task = none ↔
      validateTitle Letter task.Title = none ∧ validateDescription task.Description = none ∧
      validateCategory Letter task.Category = none ∧ validatePriority task.Priority = none ∧
      validateStatus task.Status = none ∧ validateDueDate loc now task.DueDate = none := by
  rw [ValidateTask_eq]
  cases validateTitle Letter task.Title <;>
  cases validateDescription task.Description <;>
  cases validateCategory Letter task.Category <;>
  cases validatePriority task.Priority <;>
  cases validateStatus task.Status <;>
  cases validateDueDate loc now task.DueDate <;> simp [Option.orElse]

theorem validateTitle_eq_none_iff (Letter : Char → Bool) (title : String) :
    validateTitle Letter title = none ↔
      title ≠ "" ∧ len title ≤ 100 ∧ ∃ c ∈ title.data, IsLetter Letter c = true := by
  have hany : containsMeaningfulCharacters Letter title = true ↔
      ∃ c ∈ title.data, IsLetter Letter c = true := by
    rw [containsMeaningfulCharacters_eq_any, List.any_eq_true]
  unfold validateTitle
  by_cases h0 : title = ""
  · rw [if_pos h0]
    exact ⟨fun h => (by cases h), fun h => absurd h0 h.1⟩
  · rw [if_neg h0]
    by_cases h1 : len title > 100
    · rw [if_pos h1]
      exact ⟨fun h => (by cases h), fun h => absurd h1 (Nat.not_lt.2 h.2.1)⟩
    · rw [if_neg h1]
      by_cases h2 : containsMeaningfulCharacters Letter title = true
      · rw [h2]
        exact ⟨fun _ => ⟨h0, Nat.not_lt.1 h1, hany.1 h2⟩, fun _ => rfl⟩
      · have h2f : containsMeaningfulCharacters Letter title = false := by
          simpa using h2
        rw [h2f]
        exact ⟨fun h => (by cases h), fun h => absurd (hany.2 h.2.2) h2⟩

theorem validateDescription_eq_none_iff (description : String) :
    validateDescription description = none ↔ len description ≤ 500 := by
  unfold validateDescription
  by_cases h : len description > 500
  · rw [if_pos h]
    exact ⟨fun h' => (by cases h'), fun h' => absurd h (Nat.not_lt.2 h')⟩
  · rw [if_neg h]
    exact ⟨fun _ => Nat.not_lt.1 h, fun _ => rfl⟩

theorem validateCategory_eq_none_iff (Letter : Char → Bool) (category : String) :
    validateCategory Letter category = none ↔
      category = "" ∨
        (len category ≤ 50 ∧
          ∀ c ∈ category.data, IsLetter Letter c = true ∨ IsSpace c = true ∨ c = '-') := by
  rw [option_eq_none_iff_forall_ne]
  constructor
  · intro h
    by_cases h0 : category = ""
    · exact Or.inl h0
    · refine Or.inr ⟨?_, fun c hc => ?_⟩
      · by_contra hlen
        exact h _ ((validateCategory_eq_some_iff Letter category _).2
          ⟨rfl, h0, Or.inl (Nat.not_le.1 hlen)⟩)
      · by_contra hbad
        rw [not_or, not_or] at hbad
        exact h _ ((validateCategory_eq_some_iff Letter category _).2
          ⟨rfl, h0, Or.inr ⟨c, hc, by simpa using hbad.1, by simpa using hbad.2.1, hbad.2.2⟩⟩)
  · intro h e he
    obtain ⟨-, h0, hbad⟩ := (validateCategory_eq_some_iff Letter category e).1 he
    rcases h with h | ⟨hlen, hall⟩
    · exact h0 h
    · rcases hbad with hgt | ⟨c, hc, hl, hs, hd⟩
      · omega
      · rcases hall c hc with h1 | h1 | h1
        · rw [hl] at h1; cases h1
        · rw [hs] at h1; cases h1
        · exact hd h1

theorem validatePriority_eq_none_iff (priority : Priority) :
    validatePriority priority = none ↔
      priority = "LOW" ∨ priority = "MEDIUM" ∨ priority = "HIGH" := by
  rw [option_eq_none_iff_forall_ne]
  constructor
  · intro h
    by_contra hn
    rw [not_or, not_or] at hn
    exact h _ ((validatePriority_eq_some_iff priority _).2 ⟨rfl, hn⟩)
  · intro h e he
    obtain ⟨-, h1, h2, h3⟩ := (validatePriority_eq_some_iff priority e).1 he
    rcases h with h | h | h
    · exact h1 h
    · exact h2 h
    · exact h3 h

theorem validateStatus_eq_none_iff (status : Status) :
    validateStatus status = none ↔
      status = "TODO" ∨ status = "IN_PROGRESS" ∨ status = "DONE" ∨ status = "BLOCKED" := by
  rw [option_eq_none_iff_forall_ne]
  constructor
  · intro h
    by_contra hn
    rw [not_or, not_or, not_or] at hn
    exact h _ ((validateStatus_eq_some_iff status _).2 ⟨rfl, hn⟩)
  · intro h e he
    obtain ⟨-, h1, h2, h3, h4⟩ := (validateStatus_eq_some_iff status e).1 he
    rcases h with h | h | h | h
    · exact h1 h
    · exact h2 h
    · exact h3 h
    · exact h4 h

theorem validateDueDate_eq_none_iff (loc : Location) (now dueDate : Time) :
    validateDueDate loc now dueDate = none ↔ ¬ dueDate < now ∧ ¬ AddDate loc now 5 < dueDate := by
  rw [validateDueDate_eq]
  by_cases h1 : dueDate < now
  · rw [if_pos h1]
    exact ⟨fun h => (by cases h), fun h => absurd h1 h.1⟩
  · rw [if_neg h1]
    by_cases h2 : AddDate loc now 5 < dueDate
    · rw [if_pos h2]
      exact ⟨fun h => (by cases h), fun h => absurd h2 h.2⟩
    · rw [if_neg h2]
      exact ⟨fun _ => ⟨h1, h2⟩, fun _ => rfl⟩

/-- C26. `ValidateTask` returns no error exactly when: the title is not
empty, has at most 100 bytes and holds a letter; the description has at most
500 bytes; the category is empty, or has at most 50 bytes and holds only
letters, white space and hyphens; the priority is `LOW`, `MEDIUM` or `HIGH`;
the status is `TODO`, `IN_PROGRESS`, `DONE` or `BLOCKED`; and the due date is
neither before the instant of validation nor after that instant plus five
years. An accepted task therefore has at most 100, 500 and 50 characters in
its title, description and category. -/
theorem ValidateTask_accepts_iff (Letter : Char → Bool)
    (loc : Location) (now : Time) (task : Task) :
    (ValidateTask Letter loc now task = none ↔
      (task.Title ≠ "" ∧ len task.Title ≤ 100 ∧
        ∃ c ∈ task.Title.data, IsLetter Letter c = true) ∧
      len task.Description ≤ 500 ∧
      (task.Category = "" ∨
        (len task.Category ≤ 50 ∧
          ∀ c ∈ task.Category.data,
            IsLetter Letter c = true ∨ IsSpace c = true ∨ c = '-')) ∧
      (task.Priority = "LOW" ∨ task.Priority = "MEDIUM" ∨ task.Priority = "HIGH") ∧
      (task.Status = "TODO" ∨ task.Status = "IN_PROGRESS" ∨ task.Status = "DONE" ∨
        task.Status = "BLOCKED") ∧
      (¬ task.DueDate < now ∧ ¬ AddDate loc now 5 < task.DueDate)) ∧
    (ValidateTask Letter loc now task = none →
      task.Title.length ≤ 100 ∧ task.Description.length ≤ 500 ∧ task.Category.length ≤ 50) := by
  have hiff := ValidateTask_eq_none_iff Letter loc now task
  rw [validateTitle_eq_none_iff, validateDescription_eq_none_iff, validateCategory_eq_none_iff,
    validatePriority_eq_none_iff, validateStatus_eq_none_iff, validateDueDate_eq_none_iff] at hiff
  refine ⟨hiff, fun h => ?_⟩
  obtain ⟨⟨-, ht, -⟩, hd, hc, -⟩ := hiff.1 h
  refine ⟨le_trans (length_le_len _) ht, le_trans (length_le_len _) hd, ?_⟩
  rcases hc with hc | ⟨hc, -⟩
  · rw [hc]
    decide
  · exact le_trans (length_le_len _) hc

theorem ValidateTask_accepts_iff_witness :
    ValidateTask noLetters utcLoc sampleNow sampleTask = none ∧
    sampleTask.Title.length ≤ 100 ∧ sampleTask.Description.length ≤ 500 ∧
    sampleTask.Category.length ≤ 50 ∧
    ValidateTask noLetters utcLoc sampleNow { sampleTask with Status := "ARCHIVED" } ≠ none := by
  have h : ValidateTask noLetters utcLoc sampleNow sampleTask = none := by decide
  obtain ⟨h1, h2, h3⟩ := (ValidateTask_accepts_iff noLetters utcLoc sampleNow sampleTask).2 h
  refine ⟨h, h1, h2, h3, fun hn => ?_⟩
  have hs := ((ValidateTask_accepts_iff noLetters utcLoc sampleNow
    { sampleTask with Status := "ARCHIVED" }).1.1 hn).2.2.2.2.1
  revert hs
  decide

/-! ## The message for a rejected task -/

/-- C25. For every task that `ValidateTask` rejects, `FilterValidationError`
of the returned error is the message of the first rule that fails: the title
message for an empty title, the length message for a title of more than 100
bytes, the priority and status messages for a priority or status that is not
among the valid values (the error wraps the value and still matches), the
past-due message for a due date before the instant of validation, and
`Invalid task details` for a title without a letter, a description of more
than 500 bytes, a category that breaks its rule and a due date too far
ahead. -/
theorem FilterValidationError_of_rejected (Letter : Char → Bool)
    (loc : Location) (now : Time) (task : Task)
    (err : GoError) (h : ValidateTask Letter loc now task = some err) :
    FilterValidationError err =
      if task.Title = "" then "Please provide a valid task title"
      else if len task.Title > 100 then "Task title is too long (max 100 characters)"
      else if containsMeaningfulCharacters Letter task.Title = false then "Invalid task details"
      else if len task.Description > 500 then "Invalid task details"
      else if validateCategory Letter task.Category ≠ none then "Invalid task details"
      else if validatePriority task.Priority ≠ none then "Invalid priority level"
      else if validateStatus task.Status ≠ none then "Invalid task status"
      else if task.DueDate < now then "Due date cannot be in the past"
      else "Invalid task details" := by
  rw [ValidateTask_eq] at h
  by_cases h0 : task.Title = ""
  · have ht : validateTitle Letter task.Title = some (.sentinel .ErrEmptyTitle) := by
      unfold validateTitle; rw [if_pos h0]
    rw [ht] at h
    cases h
    rw [if_pos h0]
    rfl
  rw [if_neg h0]
  by_cases h1 : len task.Title > 100
  · have ht : validateTitle Letter task.Title = some (.sentinel .ErrTitleTooLong) := by
      unfold validateTitle; rw [if_neg h0, if_pos h1]
    rw [ht] at h
    cases h
    rw [if_pos h1]
    rfl
  rw [if_neg h1]
  by_cases h2 : containsMeaningfulCharacters Letter task.Title = false
  · have ht : validateTitle Letter task.Title
        = some (.fresh "title must contain meaningful characters") := by
      unfold validateTitle; rw [if_neg h0, if_neg h1, h2]; rfl
    rw [ht] at h
    cases h
    rw [if_pos h2]
    rfl
  rw [if_neg h2]
  have ht : validateTitle Letter task.Title = none := by
    unfold validateTitle
    rw [if_neg h0, if_neg h1]
    simp only [Bool.not_eq_false] at h2
    rw [h2]
    rfl
  rw [ht] at h
  by_cases h3 : len task.Description > 500
  · have hd : validateDescription task.Description = some (.sentinel .ErrDescriptionTooLong) := by
      unfold validateDescription; rw [if_pos h3]
    rw [hd] at h
    cases h
    rw [if_pos h3]
    rfl
  rw [if_neg h3]
  have hd : validateDescription task.Description = none := by
    unfold validateDescription; rw [if_neg h3]
  rw [hd] at h
  cases hc : validateCategory Letter task.Category with
  | some e =>
    rw [hc] at h
    cases h
    rw [if_pos (Option.some_ne_none _),
      ((validateCategory_eq_some_iff Letter task.Category _).1 hc).1]
    rfl
  | none =>
    rw [hc] at h
    rw [if_neg (fun hn => hn rfl)]
    cases hp : validatePriority task.Priority with
    | some e =>
      rw [hp] at h
      cases h
      rw [if_pos (Option.some_ne_none _),
        ((validatePriority_eq_some_iff task.Priority _).1 hp).1]
      rfl
    | none =>
      rw [hp] at h
      rw [if_neg (fun hn => hn rfl)]
      cases hs : validateStatus task.Status with
      | some e =>
        rw [hs] at h
        cases h
        rw [if_pos (Option.some_ne_none _),
          ((validateStatus_eq_some_iff task.Status _).1 hs).1]
        rfl
      | none =>
        rw [hs] at h
        rw [if_neg (fun hn => hn rfl)]
        have hdue : validateDueDate loc now task.DueDate = some err := h
        rw [validateDueDate_eq] at hdue
        by_cases h8 : task.DueDate < now
        · rw [if_pos h8] at hdue
          cases hdue
          rw [if_pos h8]
          rfl
        · rw [if_neg h8] at hdue
          rw [if_neg h8]
          by_cases h9 : AddDate loc now 5 < task.DueDate
          · rw [if_pos h9] at hdue
            cases hdue
            rfl
          · rw [if_neg h9] at hdue
            cases hdue

theorem FilterValidationError_of_rejected_witness :
    ValidateTask noLetters utcLoc sampleNow { sampleTask with Priority := "URGENT" }
      = some (.wrap .ErrInvalidPriority "URGENT") ∧
    FilterValidationError (.wrap .ErrInvalidPriority "URGENT") = "Invalid priority level" ∧
    ValidateTask noLetters utcLoc sampleNow emptyTitleTask = some (.sentinel .ErrEmptyTitle) ∧
    FilterValidationError (.sentinel .ErrEmptyTitle) = "Please provide a valid task title" ∧
    ValidateTask noLetters utcLoc sampleNow { sampleTask with DueDate := AddDate utcLoc sampleNow 6 }
      = some (.fresh "due date cannot be more than 5 years in the future") ∧
    FilterValidationError (.fresh "due date cannot be more than 5 years in the future")
      = "Invalid task details" := by
  have h1 : ValidateTask noLetters utcLoc sampleNow { sampleTask with Priority := "URGENT" }
      = some (.wrap .ErrInvalidPriority "URGENT") := by decide
  have h2 : ValidateTask noLetters utcLoc sampleNow emptyTitleTask
      = some (.sentinel .ErrEmptyTitle) := by decide
  have h3 : ValidateTask noLetters utcLoc sampleNow { sampleTask with DueDate := AddDate utcLoc sampleNow 6 }
      = some (.fresh "due date cannot be more than 5 years in the future") := by decide
  exact ⟨h1, (FilterValidationError_of_rejected noLetters utcLoc sampleNow _ _ h1).trans (by decide),
    h2, (FilterValidationError_of_rejected noLetters utcLoc sampleNow _ _ h2).trans (by decide),
    h3, (FilterValidationError_of_rejected noLetters utcLoc sampleNow _ _ h3).trans (by decide)⟩

/-! ## Records are stored under their own identifier -/

theorem holdsPointer_eq_false_iff (r : PointerRepository) (task : Ptr) :
    holdsPointer r task = false ↔ ∀ k, r.tasks.lookup k ≠ some task := by
  unfold holdsPointer
  rw [List.any_eq_false]
  constructor
  · intro h k hl
    have := h ⟨k, task⟩ (AList.mem_lookup_iff.1 hl)
    simp at this
  · rintro h ⟨k, p⟩ he
    simp only [decide_eq_true_eq]
    intro hp
    exact h k (hp ▸ AList.mem_lookup_iff.2 he)

theorem pointerCreate_eq (r : PointerRepository) (task : Ptr) (newID : UUID)
    (now1 now2 : Time) :
    r.Create task newID now1 now2 =
      (none, ⟨Function.update r.deref task
        { r.deref task with ID := newID, CreatedAt := now1, UpdatedAt := now2 },
        r.tasks.insert newID task⟩) := by
  simp [PointerRepository.Create]

/-- Each allowed call keeps every stored pointer under the `ID` of its struct. -/
theorem keyed_afterPointerCall (r : PointerRepository) (c : PointerCall)
    (h : ∀ k p, r.tasks.lookup k = some p → (r.deref p).ID = k) (ha : CallAllowed r c) :
    ∀ k p, (afterPointerCall r c).tasks.lookup k = some p →
      ((afterPointerCall r c).deref p).ID = k := by
  cases c with
  | assign task content =>
    intro k p hl
    show (Function.update r.deref task content p).ID = k
    by_cases hp : p = task
    · rcases ha with ha | ha
      · exact absurd (hp ▸ hl) ((holdsPointer_eq_false_iff r task).1 ha k)
      · rw [hp, Function.update_same, ha]
        exact h k task (hp ▸ hl)
    · rw [Function.update_noteq hp]
      exact h k p hl
  | create task newID now1 now2 =>
    intro k p hl
    show ((r.Create task newID now1 now2).2.deref p).ID = k
    have hl2 : (r.Create task newID now1 now2).2.tasks.lookup k = some p := hl
    rw [pointerCreate_eq] at hl2 ⊢
    by_cases hk : k = newID
    · subst hk
      rw [AList.lookup_insert] at hl2
      cases hl2
      show (Function.update r.deref task _ task).ID = k
      rw [Function.update_same]
    · have hl3 : r.tasks.lookup k = some p := by
        rw [← hl2]
        exact (AList.lookup_insert_ne hk).symm
      have hne : p ≠ task := fun hp =>
        (holdsPointer_eq_false_iff r task).1 ha k (hp ▸ hl3)
      show (Function.update r.deref task _ p).ID = k
      rw [Function.update_noteq hne]
      exact h k p hl3
  | update task now =>
    intro k p
    show (r.Update task now).2.tasks.lookup k = some p → ((r.Update task now).2.deref p).ID = k
    unfold PointerRepository.Update
    cases hlook : r.tasks.lookup (r.deref task).ID with
    | none => exact h k p
    | some old =>
      intro hl
      have hl2 : (r.tasks.insert (r.deref task).ID task).lookup k = some p := by
        simpa using hl
      show (Function.update r.deref task { r.deref task with UpdatedAt := now } p).ID = k
      by_cases hk : k = (r.deref task).ID
      · rw [hk, AList.lookup_insert] at hl2
        cases hl2
        rw [Function.update_same, hk]
      · rw [AList.lookup_insert_ne hk] at hl2
        by_cases hp : p = task
        · exact absurd (hp ▸ h k p hl2).symm hk
        · rw [Function.update_noteq hp]
          exact h k p hl2
  | delete id =>
    intro k p
    show (r.Delete id).2.tasks.lookup k = some p → ((r.Delete id).2.deref p).ID = k
    unfold PointerRepository.Delete
    cases hlook : r.tasks.lookup id with
    | none => exact h k p
    | some old =>
      intro hl
      have hl2 : (r.tasks.erase id).lookup k = some p := hl
      by_cases hk : k = id
      · rw [hk, AList.lookup_erase] at hl2
        cases hl2
      · rw [AList.lookup_erase_ne hk] at hl2
        exact h k p hl2
  | duplicate id newID now1 now2 duplicatedTask =>
    intro k p
    show (r.Duplicate id newID now1 now2 duplicatedTask).2.tasks.lookup k = some p →
      ((r.Duplicate id newID now1 now2 duplicatedTask).2.deref p).ID = k
    unfold PointerRepository.Duplicate
    cases hlook : r.tasks.lookup id with
    | none => exact h k p
    | some originalTask =>
      intro hl
      have hl2 : (r.tasks.insert newID duplicatedTask).lookup k = some p := by
        simpa using hl
      show (Function.update r.deref duplicatedTask _ p).ID = k
      by_cases hk : k = newID
      · rw [hk, AList.lookup_insert] at hl2
        cases hl2
        rw [Function.update_same, hk]
      · rw [AList.lookup_insert_ne hk] at hl2
        have hne : p ≠ duplicatedTask := fun hp =>
          (holdsPointer_eq_false_iff r duplicatedTask).1 ha k (hp ▸ hl2)
        rw [Function.update_noteq hne]
        exact h k p hl2

theorem keyed_afterPointerCalls (r : PointerRepository) (calls : List PointerCall)
    (h : ∀ k p, r.tasks.lookup k = some p → (r.deref p).ID = k)
    (ha : CallsAllowed r calls) :
    ∀ k p, (afterPointerCalls r calls).tasks.lookup k = some p →
      ((afterPointerCalls r calls).deref p).ID = k := by
  induction calls generalizing r with
  | nil => exact h
  | cons c cs ih => exact ih (afterPointerCall r c) (keyed_afterPointerCall r c h ha.1) ha.2

theorem pointerGetByID_ok_iff (r : PointerRepository) (id : UUID) (task : Ptr) :
    r.GetByID id = Except.ok task ↔ r.tasks.lookup id = some task := by
  unfold PointerRepository.GetByID
  cases r.tasks.lookup id with
  | none => exact ⟨fun h => (by cases h), fun h => (by cases h)⟩
  | some t1 =>
    constructor
    · intro h
      cases h
      rfl
    · intro h
      cases h
      rfl

/-- The `ID`s of the structs the stored pointers refer to, in the order of the
entries, are the keys when every pointer is stored under the `ID` of its
struct. -/
theorem map_ID_eq_keys (r : PointerRepository)
    (h : ∀ k p, r.tasks.lookup k = some p → (r.deref p).ID = k) :
    ((r.tasks.entries.map fun e => (⟨e.1, r.deref e.2⟩ : Sigma fun _ : UUID => Task)).map
      Sigma.snd).map Task.ID = r.tasks.keys := by
  rw [List.map_map, List.map_map]
  apply List.map_congr_left
  rintro ⟨k, p⟩ he
  exact h k p (AList.mem_lookup_iff.2 he)

/-- The `ID`s of the tasks `List` returns are distinct when every pointer is
stored under the `ID` of its struct. -/
theorem List_nodup_of_keyed (r : PointerRepository)
    (h : ∀ k p, r.tasks.lookup k = some p → (r.deref p).ID = k) (filters : Filters)
    (tasks : List Task) (hl : r.List filters = Except.ok tasks) :
    (tasks.map Task.ID).Nodup := by
  unfold PointerRepository.List at hl
  rw [listLoop_eq] at hl
  cases hl
  rw [List.nil_append]
  refine List.Nodup.sublist (List.Sublist.map Task.ID (List.filter_sublist _)) ?_
  rw [map_ID_eq_keys r h]
  exact r.tasks.nodupKeys

/-- C27, as the claim reads, fails in the code: `Create` stores the pointer it
is given and writes the new `ID` through it. A caller fills one struct and
passes its pointer to `Create` twice, with no write of its own in between or
after. The map then holds the struct under both generated identifiers,
`GetByID` of the first identifier returns the task whose `ID` is the second,
and `List` returns two tasks with the same `ID`. -/
theorem Create_same_pointer_twice :
    (afterPointerCalls NewPointerRepository samePointerCalls).GetByID sampleID1
      = Except.ok 1 ∧
    ((afterPointerCalls NewPointerRepository samePointerCalls).deref 1).ID = sampleID2 ∧
    sampleID2 ≠ sampleID1 ∧
    (∃ tasks, (afterPointerCalls NewPointerRepository samePointerCalls).List ∅
        = Except.ok tasks ∧
      tasks.map Task.ID = [sampleID2, sampleID2] ∧ ¬ (tasks.map Task.ID).Nodup) ∧
    ¬ CallsAllowed NewPointerRepository samePointerCalls := by
  exact ⟨rfl, rfl, by decide, ⟨_, rfl, rfl, by decide⟩, by decide⟩

/-- C27, amended. In every store reached from the empty store by calls of
`Create`, `Update`, `Delete` and `Duplicate` and by assignments of callers to
structs, given that no caller changes the `ID` of a struct the store holds and
that `Create` is never passed a pointer the store already holds, every pointer
is stored under the key equal to the `ID` of its struct, so `GetByID(id)` never
returns a task whose `ID` differs from `id`, and `List` never returns two tasks
with the same `ID`. -/
theorem reachable_records_keyed (deref : Ptr → Task) (calls : List PointerCall)
    (h : CallsAllowed ⟨deref, ∅⟩ calls) :
    (∀ k p, (afterPointerCalls ⟨deref, ∅⟩ calls).tasks.lookup k = some p →
      ((afterPointerCalls ⟨deref, ∅⟩ calls).deref p).ID = k) ∧
    (∀ id task, (afterPointerCalls ⟨deref, ∅⟩ calls).GetByID id = Except.ok task →
      ((afterPointerCalls ⟨deref, ∅⟩ calls).deref task).ID = id) ∧
    (∀ filters tasks, (afterPointerCalls ⟨deref, ∅⟩ calls).List filters = Except.ok tasks →
      (tasks.map Task.ID).Nodup) := by
  have hk := keyed_afterPointerCalls ⟨deref, ∅⟩ calls
    (fun k p hl => by simp at hl) h
  refine ⟨hk, ?_, ?_⟩
  · intro id task hg
    exact hk id task ((pointerGetByID_ok_iff _ id task).1 hg)
  · intro filters tasks hl
    exact List_nodup_of_keyed _ hk filters tasks hl

/-- The amended C27 at work on `mixedCalls`: the calls are allowed, and in the
store they lead to, which holds the structs at addresses 2 and 3, each is
found under its own `ID`. -/
theorem reachable_records_keyed_witness :
    CallsAllowed ⟨NewPointerRepository.deref, ∅⟩ mixedCalls ∧
    (afterPointerCalls ⟨NewPointerRepository.deref, ∅⟩ mixedCalls).tasks.keys
      = [sampleID3, sampleID2] ∧
    ((∀ k p,
      (afterPointerCalls ⟨NewPointerRepository.deref, ∅⟩ mixedCalls).tasks.lookup k = some p →
      ((afterPointerCalls ⟨NewPointerRepository.deref, ∅⟩ mixedCalls).deref p).ID = k) ∧
    (∀ id task,
      (afterPointerCalls ⟨NewPointerRepository.deref, ∅⟩ mixedCalls).GetByID id
        = Except.ok task →
      ((afterPointerCalls ⟨NewPointerRepository.deref, ∅⟩ mixedCalls).deref task).ID = id) ∧
    (∀ filters tasks,
      (afterPointerCalls ⟨NewPointerRepository.deref, ∅⟩ mixedCalls).List filters
        = Except.ok tasks →
      (tasks.map Task.ID).Nodup)) :=
  ⟨by decide, by decide,
    reachable_records_keyed NewPointerRepository.deref mixedCalls (by decide)⟩

/-! ## Filter values of another dynamic type -/

theorem List_eq_nil_of_no_match (r : InMemoryTaskRepository) (filters : Filters)
    (h : ∀ task, specMatches task filters = false) : r.List filters = Except.ok [] := by
  rw [List_eq_filter]
  congr 1
  rw [List.filter_eq_nil_iff]
  intro t _
  rw [h t]
  exact Bool.false_ne_true

/-- C28. For every repository and filter map, the tasks are compared with the
filter values together with their dynamic types: when the `status` or the
`priority` filter holds a plain string, whatever its text, when the `title` or
the `category` filter holds a value that is not a string, or when the
`due_date` filter holds a value that is not a timestamp, `matchesFilters`
answers no for every task and `List` returns the empty sequence and no
error. -/
theorem List_compares_dynamic_types (r : InMemoryTaskRepository) (filters : Filters) :
    (∀ text, filters.lookup "status" = some (.string text) →
      (∀ task, matchesFilters task filters = false) ∧ r.List filters = Except.ok []) ∧
    (∀ text, filters.lookup "priority" = some (.string text) →
      (∀ task, matchesFilters task filters = false) ∧ r.List filters = Except.ok []) ∧
    (∀ value, (∀ text, value ≠ .string text) → filters.lookup "title" = some value →
      (∀ task, matchesFilters task filters = false) ∧ r.List filters = Except.ok []) ∧
    (∀ value, (∀ text, value ≠ .string text) → filters.lookup "category" = some value →
      (∀ task, matchesFilters task filters = false) ∧ r.List filters = Except.ok []) ∧
    (∀ value, (∀ t, value ≠ .time t) → filters.lookup "due_date" = some value →
      (∀ task, matchesFilters task filters = false) ∧ r.List filters = Except.ok []) := by
  have hboth : (∀ task, specMatches task filters = false) →
      (∀ task, matchesFilters task filters = false) ∧ r.List filters = Except.ok [] :=
    fun h => ⟨fun task => by rw [matchesFilters_eq_specMatches, h task],
      List_eq_nil_of_no_match r filters h⟩
  refine ⟨fun text hl => hboth fun task => ?_, fun text hl => hboth fun task => ?_,
    fun value hv hl => hboth fun task => ?_, fun value hv hl => hboth fun task => ?_,
    fun value hv hl => hboth fun task => ?_⟩
  · simp [specMatches, hl]
  · simp [specMatches, hl]
  · simp [specMatches, hl, hv]
  · simp [specMatches, hl, hv]
  · simp [specMatches, hl, hv]

theorem List_compares_dynamic_types_witness :
    twoTaskRepo.tasks.lookup sampleID2 = some otherTask ∧ otherTask.Status = "TODO" ∧
    plainStringStatusFilter.lookup "status" = some (.string "TODO") ∧
    matchesFilters otherTask plainStringStatusFilter = false ∧
    twoTaskRepo.List plainStringStatusFilter = Except.ok [] ∧
    twoTaskRepo.List todoFilter = Except.ok [otherTask] := by
  have hl : plainStringStatusFilter.lookup "status" = some (.string "TODO") := by decide
  obtain ⟨hno, hlist⟩ :=
    (List_compares_dynamic_types twoTaskRepo plainStringStatusFilter).1 "TODO" hl
  exact ⟨by decide, rfl, hl, hno otherTask, hlist, rfl⟩

end TaskApp
